import Mathlib

/-! Task server: a model of `src/server.js`.

The program is an Express application with five routes over one PostgreSQL
table, `tasks`.  Every route handler has the same skeleton:

    const client = getClient();
    try { await client.connect(); const result = await client.query(SQL, params); ... }
    catch (error) { res.status(500).json({ error: "Database error" }); }
    finally { await client.end(); }

The embedding is by explicit state passing.

* `Db` is the content of the table together with the last value of the
  sequence behind `id SERIAL`.
* Each SQL statement of the source is a function `Db → Except String (List Task) × Db`:
  the rows the statement returns (or the error it raises) and the database
  afterwards.
* Each handler is a function from the world before the request, the
  environment of the request (`Env`: what the network does, the clock) and the
  request's inputs to an `Outcome`: the world afterwards, the HTTP response and
  the trace of the calls made on the `pg` client.

What PostgreSQL refuses in the parameters of a statement is part of the
statement: a text that holds the character U+0000, an id outside `integer`, a
limit or offset outside `bigint` or negative.  What the round trip does
whatever the request holds (a refused connection, a lost connection) is the
`Fault` of the request; so is a parameter text PostgreSQL cannot read as a
number, since ids, limit and offset are given as the integers read.
-/

namespace TaskServer

/-! ## Data model -/

/-- A row of table `tasks` (`tableSchema`, lines 22-30).  `title` is
`TEXT NOT NULL`, so it is a string; the other text columns and `created_at`
are nullable.  A timestamp is the integer PostgreSQL stores for it. -/
structure Task where
  id : Int
  title : String
  description : Option String
  status : Option String
  created_at : Option Int
  priority : Option String
deriving DecidableEq, Repr

/-- The table and its sequence: `rows` in heap order, `seq` the last value
handed out by the sequence of `id SERIAL` (0 when none was). -/
structure Db where
  rows : List Task
  seq : Nat
deriving DecidableEq, Repr

/-- The database right after `initDB` ran on an empty database. -/
def Db.empty : Db := ⟨[], 0⟩

/-- A property of `req.body` as the handlers read it: missing (`undefined`
after destructuring), JSON `null`, or a JSON string.  The four columns the
bodies fill are `TEXT`; values of other JSON types are outside the model. -/
inductive Field where
  | absent
  | null
  | text (s : String)
deriving DecidableEq, Repr

/-- The four properties the POST and PUT handlers destructure from `req.body`. -/
structure Body where
  title : Field
  description : Field
  status : Field
  priority : Field
deriving DecidableEq, Repr

/-- A destructured property without default, as the query parameter `pg`
sends: `undefined` and `null` both become SQL NULL. -/
def Field.toParam : Field → Option String
  | .absent => none
  | .null => none
  | .text s => some s

/-- A destructured property with a default (`status = "pending"`): JavaScript
applies the default only to `undefined`, not to `null`. -/
def Field.withDefault (d : String) : Field → Option String
  | .absent => some d
  | .null => none
  | .text s => some s

/-- What the database round trip does on its own account in one request. -/
inductive Fault where
  | none
  | connect (err : String)
  | query (err : String)
deriving DecidableEq, Repr

/-- The environment of one request: the fault, and the value of
`CURRENT_TIMESTAMP` should a row be inserted. -/
structure Env where
  fault : Fault
  now : Int
deriving DecidableEq, Repr

/-- A call observable from outside the handler: the creation of a client
(`getClient`), the three methods called on it, and `console.error`. -/
inductive Event where
  | getClient (c : Nat)
  | connect (c : Nat)
  | query (c : Nat) (sql : String)
  | clientEnd (c : Nat)
  | consoleError (label : String) (err : String)
deriving DecidableEq, Repr

/-- The bodies the handlers send: the JSON objects and array of the source, and
the empty body `res.json(undefined)` sends. -/
inductive Payload where
  | error (msg : String)
  | task (t : Task)
  | tasks (ts : List Task)
  | success (flag : Bool)
  | undefined
deriving DecidableEq, Repr

/-- An HTTP response: status code and JSON body. -/
structure Response where
  status : Nat
  body : Payload
deriving DecidableEq, Repr

/-- The state requests act on: the database, and how many `Client` objects
were created so far (the next one is number `clients`). -/
structure World where
  db : Db
  clients : Nat
deriving DecidableEq, Repr

/-- What one run of a handler leaves behind. -/
structure Outcome where
  world : World
  response : Response
  trace : List Event
deriving DecidableEq, Repr

/-- The response of every `catch` block: `res.status(500).json({ error: "Database error" })`. -/
def dbError : Response := ⟨500, .error "Database error"⟩

/-- The response `res.status(404).json({ error: "Task not found" })`. -/
def notFound : Response := ⟨404, .error "Task not found"⟩

/-! ## The SQL statements -/

/-- Whether an integer fits column type `integer` (`id SERIAL`). -/
def inInt4 (x : Int) : Bool := decide (-2147483648 ≤ x ∧ x ≤ 2147483647)

/-- Whether an integer fits type `bigint`, the type of `LIMIT` and `OFFSET`. -/
def inInt8 (x : Int) : Bool := decide (-9223372036854775808 ≤ x ∧ x ≤ 9223372036854775807)

/-- The character U+0000, which PostgreSQL refuses in a value of type `text`. -/
def nulChar : Char := Char.ofNat 0

/-- A string PostgreSQL accepts as `text`: it does not hold U+0000. -/
def cleanText (s : String) : Bool := s.toList.all (fun c => c ≠ nulChar)

/-- A text parameter PostgreSQL accepts when it binds it: NULL, or a string
without U+0000. -/
def textParam : Option String → Bool
  | none => true
  | some s => cleanText s

/-- No string the property gives holds U+0000. -/
def Field.clean : Field → Bool
  | .text s => cleanText s
  | _ => true

/-- No string of the body's four properties holds U+0000. -/
def Body.clean (b : Body) : Bool :=
  b.title.clean && b.description.clean && b.status.clean && b.priority.clean

/-- The statement `SELECT * FROM tasks WHERE id = $1`. -/
def sqlSelectById : String := "SELECT * FROM tasks WHERE id = $1"

/-- Runs `sqlSelectById`: the parameter is read as `integer`. -/
def selectById (id : Int) (db : Db) : Except String (List Task) × Db :=
  if inInt4 id then (.ok (db.rows.filter (fun r => r.id = id)), db)
  else (.error "value is out of range for type integer", db)

/-- The statement of POST /tasks. -/
def sqlInsert : String :=
  "INSERT INTO tasks (title, description, status, priority) VALUES ($1, $2, $3, $4) RETURNING *"

/-- Executes `sqlInsert` at time `now`, its parameters bound.  `id` takes the
next value of the sequence, which stays consumed when the insert then fails;
`created_at` takes its default; the other columns take the parameters.  The
row is refused when the sequence is exhausted, when `title` is NULL, or when
the primary key exists. -/
def insertRow (now : Int) (title description status priority : Option String) (db : Db) :
    Except String (List Task) × Db :=
  if 2147483647 ≤ db.seq then (.error "nextval: reached maximum value of sequence", db)
  else
    let id : Int := ((db.seq + 1 : Nat) : Int)
    let db1 : Db := { db with seq := db.seq + 1 }
    match title with
    | none => (.error "null value in column title violates not-null constraint", db1)
    | some t =>
      if db.rows.any (fun r => r.id = id) then
        (.error "duplicate key value violates unique constraint tasks_pkey", db1)
      else
        let row : Task := ⟨id, t, description, status, some now, priority⟩
        (.ok [row], { db1 with rows := db.rows ++ [row] })

/-- Runs `sqlInsert` at time `now`: the four text parameters are bound, which
fails before anything is executed when one of them holds U+0000, then the
statement is executed. -/
def insertTask (now : Int) (title description status priority : Option String) (db : Db) :
    Except String (List Task) × Db :=
  if textParam title && textParam description && textParam status && textParam priority then
    insertRow now title description status priority db
  else (.error "invalid byte sequence for encoding UTF8: 0x00", db)

/-- The statement of PUT /tasks/:id. -/
def sqlUpdate : String :=
  "UPDATE tasks SET title = $1, description = $2, status = $3, priority = $4 WHERE id = $5 RETURNING *"

/-- The assignment list of `sqlUpdate` applied to one row: `id` and
`created_at` are not assigned. -/
def assign (t : String) (description status priority : Option String) (r : Task) : Task :=
  { r with title := t, description := description, status := status, priority := priority }

/-- Executes `sqlUpdate`, its text parameters bound.  The not-null constraint
is checked on the rows the statement writes, so a NULL title is an error only
when a row matches. -/
def updateRows (title description status priority : Option String) (id : Int) (db : Db) :
    Except String (List Task) × Db :=
  if inInt4 id then
    match db.rows.filter (fun r => r.id = id) with
    | [] => (.ok [], db)
    | m :: ms =>
      match title with
      | none => (.error "null value in column title violates not-null constraint", db)
      | some t =>
        let upd : Task → Task := assign t description status priority
        (.ok ((m :: ms).map upd),
         { db with rows := db.rows.map (fun r => if r.id = id then upd r else r) })
  else (.error "value is out of range for type integer", db)

/-- Runs `sqlUpdate`: the four text parameters are bound, which fails before
anything is executed when one of them holds U+0000, then the statement is
executed. -/
def updateTask (title description status priority : Option String) (id : Int) (db : Db) :
    Except String (List Task) × Db :=
  if textParam title && textParam description && textParam status && textParam priority then
    updateRows title description status priority id db
  else (.error "invalid byte sequence for encoding UTF8: 0x00", db)

/-- The statement of DELETE /tasks/:id. -/
def sqlDelete : String := "DELETE FROM tasks WHERE id = $1 RETURNING *"

/-- Runs `sqlDelete`: returns the rows removed. -/
def deleteRows (id : Int) (db : Db) : Except String (List Task) × Db :=
  if inInt4 id then
    (.ok (db.rows.filter (fun r => r.id = id)),
     { db with rows := db.rows.filter (fun r => ¬ r.id = id) })
  else (.error "value is out of range for type integer", db)

/-! ### Pattern matching of `ILIKE` -/

/-- The escape character of a `LIKE` pattern, the backslash. -/
def escapeChar : Char := Char.ofNat 92

/-- Tries `k` on the text and on each of its suffixes, longest first: what a
`%` of the pattern followed by the rest `k` does. -/
def anySuffix (k : List Char → Option Bool) : List Char → Option Bool
  | [] => k []
  | c :: t =>
    match k (c :: t) with
    | some true => some true
    | some false => anySuffix k t
    | none => none

/-- Whether the text matches the `LIKE` pattern, characters compared after
`fold` (the lower-casing of the database's locale, which makes the match an
`ILIKE`).  `%` matches any run of characters, `_` any one character, a
backslash makes the next pattern character literal.  `none` is the error
PostgreSQL raises when the matcher arrives at a backslash that ends the
pattern with text left to match. -/
def likeMatch (fold : Char → Char) : List Char → List Char → Option Bool
  | [], t => some t.isEmpty
  | c :: p, t =>
    if c = '%' then anySuffix (likeMatch fold p) t
    else if c = '_' then
      match t with
      | [] => some false
      | _ :: t1 => likeMatch fold p t1
    else if c = escapeChar then
      match p with
      | [] =>
        match t with
        | [] => some false
        | _ :: _ => none
      | e :: p1 =>
        match t with
        | [] => some false
        | d :: t1 => if fold e = fold d then likeMatch fold p1 t1 else some false
    else
      match t with
      | [] => some false
      | d :: t1 => if fold c = fold d then likeMatch fold p t1 else some false

/-- The rows whose title matches the pattern (`WHERE title ILIKE $1`), in heap
order; `none` when the match raises an error on some row. -/
def whereTitleILike (fold : Char → Char) (pattern : String) : List Task → Option (List Task)
  | [] => some []
  | r :: rs =>
    match likeMatch fold pattern.toList r.title.toList, whereTitleILike fold pattern rs with
    | some true, some out => some (r :: out)
    | some false, some out => some out
    | _, _ => none

/-- The order of `ORDER BY created_at DESC` as a test: row `a` may stand before
row `b`.  Descending order puts NULL first in PostgreSQL. -/
def createdAtDesc (a b : Task) : Bool :=
  match a.created_at, b.created_at with
  | none, _ => true
  | some _, none => false
  | some x, some y => decide (y ≤ x)

/-- The order of `ORDER BY created_at DESC` as a relation. -/
def OrderedDesc (a b : Task) : Prop := createdAtDesc a b = true

instance : DecidableRel OrderedDesc :=
  fun a b => inferInstanceAs (Decidable (createdAtDesc a b = true))

instance : IsTotal Task OrderedDesc where
  total a b := by
    unfold OrderedDesc createdAtDesc
    cases a.created_at <;> cases b.created_at <;> simp
    omega

instance : IsTrans Task OrderedDesc where
  trans a b c := by
    unfold OrderedDesc createdAtDesc
    cases a.created_at <;> cases b.created_at <;> cases c.created_at <;> simp
    omega

/-- The statement of GET /tasks. -/
def sqlSelectList : String :=
  "SELECT * FROM tasks WHERE title ILIKE $1 ORDER BY created_at DESC LIMIT $2 OFFSET $3"

/-- Executes `sqlSelectList`, its parameters bound.  Rows with equal
`created_at` keep their heap order, one of the orders PostgreSQL may give
them. -/
def selectRows (fold : Char → Char) (pattern : String) (limit offset : Int) (db : Db) :
    Except String (List Task) × Db :=
  if limit < 0 then (.error "LIMIT must not be negative", db)
  else if offset < 0 then (.error "OFFSET must not be negative", db)
  else
    match whereTitleILike fold pattern db.rows with
    | none => (.error "LIKE pattern must not end with escape character", db)
    | some rs =>
      (.ok (((rs.insertionSort OrderedDesc).drop offset.toNat).take limit.toNat), db)

/-- Runs `sqlSelectList`: the pattern is bound as `text`, which fails when it
holds U+0000, `limit` and `offset` are bound as `bigint`, which fails when
they do not fit it, then the statement is executed. -/
def selectList (fold : Char → Char) (pattern : String) (limit offset : Int) (db : Db) :
    Except String (List Task) × Db :=
  if cleanText pattern then
    if inInt8 limit && inInt8 offset then selectRows fold pattern limit offset db
    else (.error "value is out of range for type bigint", db)
  else (.error "invalid byte sequence for encoding UTF8: 0x00", db)

/-! ## The route handlers -/

/-- The call `getClient()`: a new `Client` object, numbered by creation. -/
def getClient (w : World) : Nat × World := (w.clients, { w with clients := w.clients + 1 })

/-- The call `client.query(sql, params)` on a connected client: the statement
runs unless the round trip fails on its own account, which leaves the
database as it was. -/
def query (fault : Fault) (stmt : Db → Except String (List Task) × Db) (db : Db) :
    Except String (List Task) × Db :=
  match fault with
  | .query err => (.error err, db)
  | _ => stmt db

/-- Handler of `GET /tasks` (lines 44-60).  `q`, `limit` and `offset` are the
properties of `req.query`, `none` when the URL does not give them; `limit`
and `offset` are given as the integers PostgreSQL reads from their text. -/
def getTasks (fold : Char → Char) (w : World) (env : Env)
    (q : Option String) (limit offset : Option Int) : Outcome :=
  let q1 := q.getD ""
  let limit1 := limit.getD 20
  let offset1 := offset.getD 0
  let (c, w1) := getClient w
  match env.fault with
  | .connect err =>
    ⟨w1, dbError, [.getClient c, .connect c, .consoleError "GET /tasks error:" err, .clientEnd c]⟩
  | _ =>
    match query env.fault (selectList fold ("%" ++ q1 ++ "%") limit1 offset1) w1.db with
    | (.error err, db1) =>
      ⟨{ w1 with db := db1 }, dbError,
        [.getClient c, .connect c, .query c sqlSelectList,
         .consoleError "GET /tasks error:" err, .clientEnd c]⟩
    | (.ok rows, db1) =>
      ⟨{ w1 with db := db1 }, ⟨200, .tasks rows⟩,
        [.getClient c, .connect c, .query c sqlSelectList, .clientEnd c]⟩

/-- Handler of `GET /tasks/:id` (lines 63-75). -/
def getTaskById (w : World) (env : Env) (id : Int) : Outcome :=
  let (c, w1) := getClient w
  match env.fault with
  | .connect _ => ⟨w1, dbError, [.getClient c, .connect c, .clientEnd c]⟩
  | _ =>
    match query env.fault (selectById id) w1.db with
    | (.error _, db1) =>
      ⟨{ w1 with db := db1 }, dbError,
        [.getClient c, .connect c, .query c sqlSelectById, .clientEnd c]⟩
    | (.ok [], db1) =>
      ⟨{ w1 with db := db1 }, notFound,
        [.getClient c, .connect c, .query c sqlSelectById, .clientEnd c]⟩
    | (.ok (r :: _), db1) =>
      ⟨{ w1 with db := db1 }, ⟨200, .task r⟩,
        [.getClient c, .connect c, .query c sqlSelectById, .clientEnd c]⟩

/-- Handler of `POST /tasks` (lines 78-94).  When the insert returns no row,
`result.rows[0]` is `undefined` and the 201 response has no body; the insert
of this model always returns its row. -/
def postTask (w : World) (env : Env) (body : Body) : Outcome :=
  let title := body.title.toParam
  let description := body.description.toParam
  let status := body.status.withDefault "pending"
  let priority := body.priority.withDefault "low"
  let (c, w1) := getClient w
  match env.fault with
  | .connect err =>
    ⟨w1, dbError, [.getClient c, .connect c, .consoleError "POST /tasks error:" err, .clientEnd c]⟩
  | _ =>
    match query env.fault (insertTask env.now title description status priority) w1.db with
    | (.error err, db1) =>
      ⟨{ w1 with db := db1 }, dbError,
        [.getClient c, .connect c, .query c sqlInsert,
         .consoleError "POST /tasks error:" err, .clientEnd c]⟩
    | (.ok [], db1) =>
      ⟨{ w1 with db := db1 }, ⟨201, .undefined⟩,
        [.getClient c, .connect c, .query c sqlInsert, .clientEnd c]⟩
    | (.ok (r :: _), db1) =>
      ⟨{ w1 with db := db1 }, ⟨201, .task r⟩,
        [.getClient c, .connect c, .query c sqlInsert, .clientEnd c]⟩

/-- Handler of `PUT /tasks/:id` (lines 97-113). -/
def putTask (w : World) (env : Env) (id : Int) (body : Body) : Outcome :=
  let title := body.title.toParam
  let description := body.description.toParam
  let status := body.status.toParam
  let priority := body.priority.toParam
  let (c, w1) := getClient w
  match env.fault with
  | .connect _ => ⟨w1, dbError, [.getClient c, .connect c, .clientEnd c]⟩
  | _ =>
    match query env.fault (updateTask title description status priority id) w1.db with
    | (.error _, db1) =>
      ⟨{ w1 with db := db1 }, dbError,
        [.getClient c, .connect c, .query c sqlUpdate, .clientEnd c]⟩
    | (.ok [], db1) =>
      ⟨{ w1 with db := db1 }, notFound,
        [.getClient c, .connect c, .query c sqlUpdate, .clientEnd c]⟩
    | (.ok (r :: _), db1) =>
      ⟨{ w1 with db := db1 }, ⟨200, .task r⟩,
        [.getClient c, .connect c, .query c sqlUpdate, .clientEnd c]⟩

/-- Handler of `DELETE /tasks/:id` (lines 116-128). -/
def deleteTask (w : World) (env : Env) (id : Int) : Outcome :=
  let (c, w1) := getClient w
  match env.fault with
  | .connect _ => ⟨w1, dbError, [.getClient c, .connect c, .clientEnd c]⟩
  | _ =>
    match query env.fault (deleteRows id) w1.db with
    | (.error _, db1) =>
      ⟨{ w1 with db := db1 }, dbError,
        [.getClient c, .connect c, .query c sqlDelete, .clientEnd c]⟩
    | (.ok [], db1) =>
      ⟨{ w1 with db := db1 }, notFound,
        [.getClient c, .connect c, .query c sqlDelete, .clientEnd c]⟩
    | (.ok (_ :: _), db1) =>
      ⟨{ w1 with db := db1 }, ⟨200, .success true⟩,
        [.getClient c, .connect c, .query c sqlDelete, .clientEnd c]⟩

/-! ## Requests in sequence -/

/-- A request to one of the five routes, with the inputs its handler reads. -/
inductive Request where
  | list (q : Option String) (limit offset : Option Int)
  | get (id : Int)
  | create (body : Body)
  | update (id : Int) (body : Body)
  | delete (id : Int)
deriving DecidableEq, Repr

/-- Express dispatches the request to the handler of its route. -/
def handle (fold : Char → Char) (w : World) (env : Env) : Request → Outcome
  | .list q limit offset => getTasks fold w env q limit offset
  | .get id => getTaskById w env id
  | .create body => postTask w env body
  | .update id body => putTask w env id body
  | .delete id => deleteTask w env id

/-- Serves the requests one after the other, each in its environment, and
returns the outcome of each. -/
def serve (fold : Char → Char) : World → List (Env × Request) → List Outcome
  | _, [] => []
  | w, (env, req) :: rest => handle fold w env req :: serve fold (handle fold w env req).world rest

/-- The world after the requests were served. -/
def after (fold : Char → Char) : World → List (Env × Request) → World
  | w, [] => w
  | w, (env, req) :: rest => after fold (handle fold w env req).world rest

/-- The statement, with its parameters bound, that the handler of the request
passes to `client.query`. -/
def statementOf (fold : Char → Char) (env : Env) : Request → Db → Except String (List Task) × Db
  | .list q limit offset =>
    selectList fold ("%" ++ q.getD "" ++ "%") (limit.getD 20) (offset.getD 0)
  | .get id => selectById id
  | .create body =>
    insertTask env.now body.title.toParam body.description.toParam
      (body.status.withDefault "pending") (body.priority.withDefault "low")
  | .update id body =>
    updateTask body.title.toParam body.description.toParam body.status.toParam
      body.priority.toParam id
  | .delete id => deleteRows id

/-- The database round trip of a request, `await client.connect()` then
`await client.query(...)`: the rows returned, or the error thrown into the
handler's `catch` block. -/
def roundTrip (fold : Char → Char) (w : World) (env : Env) (req : Request) :
    Except String (List Task) :=
  match env.fault with
  | .connect err => .error err
  | _ => (query env.fault (statementOf fold env req) w.db).1

/-- The calls made on `pg` clients, in order: the trace without the
`console.error` lines. -/
def clientCalls (trace : List Event) : List Event :=
  trace.filter (fun e => match e with | .consoleError _ _ => false | _ => true)

/-! ## Example inputs -/

/-- A stored task. -/
def exampleRow : Task := ⟨1, "Buy Milk", some "2 litres", some "pending", some 100, some "low"⟩

/-- A world whose table holds `exampleRow` alone, before any request. -/
def exampleWorld : World := ⟨⟨[exampleRow], 1⟩, 0⟩

/-- An environment in which the round trip meets no fault. -/
def quiet : Env := ⟨.none, 200⟩

/-- The request body `{}`. -/
def emptyBody : Body := ⟨.absent, .absent, .absent, .absent⟩

/-- A request body that gives all four properties. -/
def fullBody : Body := ⟨.text "Buy Bread", .text "wholemeal", .text "done", .text "high"⟩

/-- An environment in which the connection is refused. -/
def refused : Env := ⟨.connect "ECONNREFUSED", 0⟩

/-- Three requests, the second of which finds the connection refused. -/
def exampleRequests : List (Env × Request) :=
  [(quiet, .get 1), (refused, .delete 1), (quiet, .get 2)]

/-! ## Invariants of the table -/

/-- Every `id` of the table fits its column type, `integer`. -/
def Db.Valid (db : Db) : Prop := ∀ r ∈ db.rows, inInt4 r.id = true

/-- Every `id` of the table came from the sequence: none exceeds the last
value handed out.  True of the empty table and kept by every request. -/
def Db.Serial (db : Db) : Prop := ∀ r ∈ db.rows, r.id ≤ (db.seq : Int)

/-- The request body `{"title": "Write spec"}`. -/
def titleOnly : Body := ⟨.text "Write spec", .absent, .absent, .absent⟩

/-! ## Words of the specification -/

/-- Row `x` is strictly newer than row `r`: its `created_at` is later, a NULL
`created_at` counting as later than every timestamp. -/
def newerThan (x r : Task) : Bool :=
  match x.created_at, r.created_at with
  | some a, some b => decide (b < a)
  | none, some _ => true
  | _, none => false

/-- The number of rows of the table strictly newer than `r`: 0 for the newest
task, `k - 1` for the `k`-th newest. -/
def rank (rows : List Task) (r : Task) : Nat := rows.countP (fun x => newerThan x r)

/-- A table of 25 tasks created one after the other: task `i` at time `i`. -/
def table25 : List Task :=
  (List.range 25).map (fun i =>
    ⟨((i + 1 : Nat) : Int), "task", none, some "pending", some ((i + 1 : Nat) : Int), some "low"⟩)

/-- The world of `table25`. -/
def world25 : World := ⟨⟨table25, 25⟩, 0⟩

/-- The pattern ends in a backslash that escapes nothing. -/
def dangling : List Char → Bool
  | [] => false
  | c :: p =>
    if c = escapeChar then
      match p with
      | [] => true
      | _ :: p1 => dangling p1
    else dangling p

/-- A character that stands for itself in a `LIKE` pattern: not `%`, not `_`,
not the backslash. -/
def plainChar (c : Char) : Bool := !(c = '%' || c = '_' || c = escapeChar)

/-- The title contains `q` as a substring when letter case, as `fold` maps it,
is ignored. -/
def containsIgnoringCase (fold : Char → Char) (q title : String) : Prop :=
  q.toList.map fold <:+: title.toList.map fold

instance (fold : Char → Char) (q title : String) : Decidable (containsIgnoringCase fold q title) :=
  inferInstanceAs (Decidable (q.toList.map fold <:+: title.toList.map fold))

/-- A world with one task, titled `a`. -/
def worldA : World := ⟨⟨[⟨1, "a", some "_", some "pending", some 100, some "low"⟩], 1⟩, 0⟩

/-- A world with one task, whose title holds a backslash. -/
def worldBackslash : World :=
  ⟨⟨[⟨1, String.mk ['a', escapeChar, 'b'], none, some "pending", some 100, some "low"⟩], 1⟩, 0⟩

/-- A request body whose title holds U+0000 between `a` and `b`. -/
def nulTitle : Body := ⟨.text (String.mk ['a', nulChar, 'b']), .absent, .absent, .absent⟩

/-- A request body that gives all four properties, its description holding
U+0000 between `a` and `b`. -/
def nulDescription : Body :=
  ⟨.text "x", .text (String.mk ['a', nulChar, 'b']), .text "done", .text "high"⟩

/-! # Theorems -/

/-! ## Handlers in terms of the round trip -/

theorem handle_db (fold : Char → Char) (w : World) (env : Env) (req : Request) :
    (handle fold w env req).world.db
      = match env.fault with
        | .none => (statementOf fold env req w.db).2
        | _ => w.db := by
  cases req <;> rcases env with ⟨fault, now⟩ <;> cases fault <;>
    simp only [handle, getTasks, getTaskById, postTask, putTask, deleteTask, getClient, query,
      statementOf] <;>
    first
      | rfl
      | (split <;> simp_all)

theorem getTaskById_response (fold : Char → Char) (w : World) (env : Env) (id : Int) :
    (getTaskById w env id).response
      = match roundTrip fold w env (.get id) with
        | .error _ => dbError
        | .ok [] => notFound
        | .ok (r :: _) => ⟨200, .task r⟩ := by
  rcases env with ⟨fault, now⟩
  cases fault <;> simp only [getTaskById, getClient, query, roundTrip, statementOf] <;>
    first
      | rfl
      | (split <;> simp_all)

theorem putTask_response (fold : Char → Char) (w : World) (env : Env) (id : Int) (body : Body) :
    (putTask w env id body).response
      = match roundTrip fold w env (.update id body) with
        | .error _ => dbError
        | .ok [] => notFound
        | .ok (r :: _) => ⟨200, .task r⟩ := by
  rcases env with ⟨fault, now⟩
  cases fault <;> simp only [putTask, getClient, query, roundTrip, statementOf] <;>
    first
      | rfl
      | (split <;> simp_all)

theorem deleteTask_response (fold : Char → Char) (w : World) (env : Env) (id : Int) :
    (deleteTask w env id).response
      = match roundTrip fold w env (.delete id) with
        | .error _ => dbError
        | .ok [] => notFound
        | .ok (_ :: _) => ⟨200, .success true⟩ := by
  rcases env with ⟨fault, now⟩
  cases fault <;> simp only [deleteTask, getClient, query, roundTrip, statementOf] <;>
    first
      | rfl
      | (split <;> simp_all)

theorem postTask_response (fold : Char → Char) (w : World) (env : Env) (body : Body) :
    (postTask w env body).response
      = match roundTrip fold w env (.create body) with
        | .error _ => dbError
        | .ok [] => ⟨201, .undefined⟩
        | .ok (r :: _) => ⟨201, .task r⟩ := by
  rcases env with ⟨fault, now⟩
  cases fault <;> simp only [postTask, getClient, query, roundTrip, statementOf] <;>
    first
      | rfl
      | (split <;> simp_all)

theorem getTasks_response (fold : Char → Char) (w : World) (env : Env)
    (q : Option String) (limit offset : Option Int) :
    (getTasks fold w env q limit offset).response
      = match roundTrip fold w env (.list q limit offset) with
        | .error _ => dbError
        | .ok rows => ⟨200, .tasks rows⟩ := by
  rcases env with ⟨fault, now⟩
  cases fault <;> simp only [getTasks, getClient, query, roundTrip, statementOf] <;>
    first
      | rfl
      | (split <;> simp_all)

theorem roundTrip_ok (fold : Char → Char) (w : World) (env : Env) (req : Request)
    (rows : List Task) (h : roundTrip fold w env req = .ok rows) :
    env.fault = .none ∧ (statementOf fold env req w.db).1 = .ok rows := by
  rcases env with ⟨fault, now⟩
  cases fault <;> simp_all [roundTrip, query]

theorem roundTrip_none (fold : Char → Char) (w : World) (env : Env) (req : Request)
    (h : env.fault = .none) :
    roundTrip fold w env req = (statementOf fold env req w.db).1 := by
  rcases env with ⟨fault, now⟩
  cases fault <;> simp_all [roundTrip, query]

theorem filter_id_nil_iff (rows : List Task) (id : Int) :
    rows.filter (fun r => r.id = id) = [] ↔ ∀ r ∈ rows, r.id ≠ id := by
  simp [List.filter_eq_nil_iff]

theorem filter_id_cons (rows : List Task) (id : Int) (m : Task) (ms : List Task)
    (h : rows.filter (fun r => r.id = id) = m :: ms) : m ∈ rows ∧ m.id = id := by
  have hm : m ∈ rows.filter (fun r => r.id = id) := by rw [h]; exact List.mem_cons_self _ _
  simpa using hm

theorem selectById_ok (id : Int) (db : Db) (rows : List Task)
    (h : (selectById id db).1 = .ok rows) :
    inInt4 id = true ∧ rows = db.rows.filter (fun r => r.id = id) := by
  unfold selectById at h
  split at h
  · rename_i hid
    refine ⟨hid, ?_⟩
    simpa [eq_comm] using h
  · simp at h

theorem deleteRows_ok (id : Int) (db : Db) (rows : List Task)
    (h : (deleteRows id db).1 = .ok rows) :
    inInt4 id = true ∧ rows = db.rows.filter (fun r => r.id = id)
      ∧ (deleteRows id db).2 = { db with rows := db.rows.filter (fun r => ¬ r.id = id) } := by
  unfold deleteRows at h ⊢
  split at h
  · rename_i hid
    refine ⟨hid, ?_, ?_⟩
    · simpa [eq_comm] using h
    · simp [hid]
  · simp at h

theorem updateRows_ok (title description status priority : Option String) (id : Int) (db : Db)
    (rows : List Task) (h : (updateRows title description status priority id db).1 = .ok rows) :
    inInt4 id = true ∧
    ((db.rows.filter (fun r => r.id = id) = [] ∧ rows = []
        ∧ (updateRows title description status priority id db).2 = db)
     ∨ ∃ t m ms, title = some t ∧ db.rows.filter (fun r => r.id = id) = m :: ms
        ∧ rows = (m :: ms).map (assign t description status priority)
        ∧ (updateRows title description status priority id db).2
            = ⟨db.rows.map (fun r => if r.id = id then assign t description status priority r else r),
               db.seq⟩) := by
  unfold updateRows at h ⊢
  split at h
  · rename_i hid
    refine ⟨hid, ?_⟩
    simp only [hid, if_true]
    cases hf : db.rows.filter (fun r => r.id = id) with
    | nil =>
      left
      rw [hf] at h
      simp at h
      simp [h]
    | cons m ms =>
      right
      rw [hf] at h
      cases title with
      | none => simp at h
      | some t =>
        simp at h
        exact ⟨t, m, ms, rfl, rfl, by simp [← h], rfl⟩
  · simp at h

theorem updateTask_ok (title description status priority : Option String) (id : Int) (db : Db)
    (rows : List Task) (h : (updateTask title description status priority id db).1 = .ok rows) :
    inInt4 id = true ∧
    ((db.rows.filter (fun r => r.id = id) = [] ∧ rows = []
        ∧ (updateTask title description status priority id db).2 = db)
     ∨ ∃ t m ms, title = some t ∧ db.rows.filter (fun r => r.id = id) = m :: ms
        ∧ rows = (m :: ms).map (assign t description status priority)
        ∧ (updateTask title description status priority id db).2
            = ⟨db.rows.map (fun r => if r.id = id then assign t description status priority r else r),
               db.seq⟩) := by
  unfold updateTask at h ⊢
  by_cases hp : (textParam title && textParam description && textParam status
      && textParam priority) = true
  · rw [if_pos hp] at h ⊢
    exact updateRows_ok _ _ _ _ _ _ _ h
  · rw [if_neg hp] at h
    cases h

theorem toParam_eq_some (f : Field) (t : String) : f.toParam = some t ↔ f = .text t := by
  cases f <;> simp [Field.toParam]

theorem getTaskById_spec (fold : Char → Char) (w : World) (env : Env) (id : Int)
    (rows : List Task) (hok : roundTrip fold w env (.get id) = .ok rows) :
    ((getTaskById w env id).response = notFound ↔ ∀ r ∈ w.db.rows, r.id ≠ id)
    ∧ ((∃ r ∈ w.db.rows, r.id = id) →
        ∃ m ∈ w.db.rows, m.id = id ∧ (getTaskById w env id).response = ⟨200, .task m⟩)
    ∧ (getTaskById w env id).world.db = w.db := by
  have hdb := handle_db fold w env (.get id)
  obtain ⟨hfault, hstmt⟩ := roundTrip_ok fold w env _ rows hok
  simp only [handle, hfault, statementOf] at hdb hstmt
  obtain ⟨hid, hrows⟩ := selectById_ok id w.db rows hstmt
  rw [getTaskById_response fold, hok, hdb]
  refine ⟨?_, ?_, by simp [selectById, hid]⟩
  · cases hf : w.db.rows.filter (fun r => r.id = id) with
    | nil =>
      rw [hf] at hrows
      subst hrows
      simpa using (filter_id_nil_iff _ _).1 hf
    | cons m ms =>
      rw [hf] at hrows
      subst hrows
      obtain ⟨hm, hmid⟩ := filter_id_cons _ _ _ _ hf
      simp only [notFound, Response.mk.injEq, reduceCtorEq, and_false, false_iff]
      intro hall
      exact hall m hm hmid
  · rintro ⟨r, hr, hrid⟩
    cases hf : w.db.rows.filter (fun r => r.id = id) with
    | nil => exact absurd hrid ((filter_id_nil_iff _ _).1 hf r hr)
    | cons m ms =>
      rw [hf] at hrows
      subst hrows
      obtain ⟨hm, hmid⟩ := filter_id_cons _ _ _ _ hf
      exact ⟨m, hm, hmid, rfl⟩

theorem deleteTask_spec (fold : Char → Char) (w : World) (env : Env) (id : Int)
    (rows : List Task) (hok : roundTrip fold w env (.delete id) = .ok rows) :
    ((deleteTask w env id).response = notFound ↔ ∀ r ∈ w.db.rows, r.id ≠ id)
    ∧ ((∃ r ∈ w.db.rows, r.id = id) → (deleteTask w env id).response = ⟨200, .success true⟩)
    ∧ (deleteTask w env id).world.db.rows = w.db.rows.filter (fun r => ¬ r.id = id)
    ∧ (deleteTask w env id).world.db.seq = w.db.seq := by
  have hdb := handle_db fold w env (.delete id)
  obtain ⟨hfault, hstmt⟩ := roundTrip_ok fold w env _ rows hok
  simp only [handle, hfault, statementOf] at hdb hstmt
  obtain ⟨hid, hrows, hdb2⟩ := deleteRows_ok id w.db rows hstmt
  rw [deleteTask_response fold, hok, hdb, hdb2]
  refine ⟨?_, ?_, rfl, rfl⟩
  · cases hf : w.db.rows.filter (fun r => r.id = id) with
    | nil =>
      rw [hf] at hrows
      subst hrows
      simpa using (filter_id_nil_iff _ _).1 hf
    | cons m ms =>
      rw [hf] at hrows
      subst hrows
      obtain ⟨hm, hmid⟩ := filter_id_cons _ _ _ _ hf
      simp only [notFound, Response.mk.injEq, reduceCtorEq, and_false, false_iff]
      intro hall
      exact hall m hm hmid
  · rintro ⟨r, hr, hrid⟩
    cases hf : w.db.rows.filter (fun r => r.id = id) with
    | nil => exact absurd hrid ((filter_id_nil_iff _ _).1 hf r hr)
    | cons m ms =>
      rw [hf] at hrows
      subst hrows
      rfl

theorem putTask_spec (fold : Char → Char) (w : World) (env : Env) (id : Int) (body : Body)
    (rows : List Task) (hok : roundTrip fold w env (.update id body) = .ok rows) :
    ((putTask w env id body).response = notFound ↔ ∀ r ∈ w.db.rows, r.id ≠ id)
    ∧ ((∃ r ∈ w.db.rows, r.id = id) →
        ∃ m ∈ w.db.rows, m.id = id ∧ ∃ t, body.title = .text t
          ∧ (putTask w env id body).response
              = ⟨200, .task (assign t body.description.toParam body.status.toParam
                  body.priority.toParam m)⟩
          ∧ (putTask w env id body).world.db.rows
              = w.db.rows.map (fun r => if r.id = id then
                  assign t body.description.toParam body.status.toParam body.priority.toParam r
                  else r))
    ∧ ((putTask w env id body).response = notFound → (putTask w env id body).world.db = w.db)
    ∧ (putTask w env id body).world.db.seq = w.db.seq := by
  have hdb := handle_db fold w env (.update id body)
  obtain ⟨hfault, hstmt⟩ := roundTrip_ok fold w env _ rows hok
  simp only [handle, hfault, statementOf] at hdb hstmt
  obtain ⟨hid, hcase⟩ := updateTask_ok _ _ _ _ id w.db rows hstmt
  rw [putTask_response fold, hok, hdb]
  rcases hcase with ⟨hf, hrows, hdb2⟩ | ⟨t, m, ms, ht, hf, hrows, hdb2⟩
  · subst hrows
    have hall := (filter_id_nil_iff _ _).1 hf
    refine ⟨by simpa using hall, ?_, fun _ => hdb2, by rw [hdb2]⟩
    rintro ⟨r, hr, hrid⟩
    exact absurd hrid (hall r hr)
  · subst hrows
    obtain ⟨hm, hmid⟩ := filter_id_cons _ _ _ _ hf
    refine ⟨?_, ?_, ?_, by rw [hdb2]⟩
    · simp only [List.map_cons, notFound, Response.mk.injEq, reduceCtorEq, and_false, false_iff]
      intro hall
      exact hall m hm hmid
    · intro _
      exact ⟨m, hm, hmid, t, (toParam_eq_some _ _).1 ht, rfl, by rw [hdb2]⟩
    · simp [notFound]

/-! ## What the statements do to the table -/

theorem selectRows_db (fold : Char → Char) (pattern : String) (limit offset : Int) (db : Db) :
    (selectRows fold pattern limit offset db).2 = db := by
  unfold selectRows
  split
  · rfl
  · split
    · rfl
    · split <;> rfl

theorem selectList_db (fold : Char → Char) (pattern : String) (limit offset : Int) (db : Db) :
    (selectList fold pattern limit offset db).2 = db := by
  unfold selectList
  split
  · split
    · exact selectRows_db fold pattern limit offset db
    · rfl
  · rfl

theorem selectById_db (id : Int) (db : Db) : (selectById id db).2 = db := by
  unfold selectById
  split <;> rfl

theorem deleteRows_db (id : Int) (db : Db) :
    (deleteRows id db).2 = db
      ∨ (deleteRows id db).2 = ⟨db.rows.filter (fun r => ¬ r.id = id), db.seq⟩ := by
  unfold deleteRows
  split
  · right; rfl
  · left; rfl

theorem updateRows_db (title description status priority : Option String) (id : Int) (db : Db) :
    (updateRows title description status priority id db).2 = db
      ∨ ∃ f : Task → Task, (∀ r, (f r).id = r.id)
          ∧ (updateRows title description status priority id db).2 = ⟨db.rows.map f, db.seq⟩ := by
  unfold updateRows
  split
  · split
    · left; rfl
    · split
      · left; rfl
      · right
        rename_i t
        refine ⟨fun r => if r.id = id then assign t description status priority r else r, ?_, rfl⟩
        intro r
        by_cases h : r.id = id
        · simp [h, assign]
        · simp [h]
  · left; rfl

theorem updateTask_db (title description status priority : Option String) (id : Int) (db : Db) :
    (updateTask title description status priority id db).2 = db
      ∨ ∃ f : Task → Task, (∀ r, (f r).id = r.id)
          ∧ (updateTask title description status priority id db).2 = ⟨db.rows.map f, db.seq⟩ := by
  unfold updateTask
  split
  · exact updateRows_db title description status priority id db
  · left; rfl

theorem insertRow_db (now : Int) (title description status priority : Option String) (db : Db) :
    (insertRow now title description status priority db).2 = db
      ∨ (insertRow now title description status priority db).2 = ⟨db.rows, db.seq + 1⟩
      ∨ ∃ r : Task, r.id = ((db.seq + 1 : Nat) : Int) ∧ db.seq < 2147483647
          ∧ (insertRow now title description status priority db).2
              = ⟨db.rows ++ [r], db.seq + 1⟩ := by
  unfold insertRow
  split
  · left; rfl
  · rename_i hseq
    split
    · right; left; rfl
    · simp only
      split
      · right; left; rfl
      · right; right
        exact ⟨_, rfl, by omega, rfl⟩

theorem insertTask_db (now : Int) (title description status priority : Option String) (db : Db) :
    (insertTask now title description status priority db).2 = db
      ∨ (insertTask now title description status priority db).2 = ⟨db.rows, db.seq + 1⟩
      ∨ ∃ r : Task, r.id = ((db.seq + 1 : Nat) : Int) ∧ db.seq < 2147483647
          ∧ (insertTask now title description status priority db).2
              = ⟨db.rows ++ [r], db.seq + 1⟩ := by
  unfold insertTask
  split
  · exact insertRow_db now title description status priority db
  · left; rfl

/-- A request other than a create brings no new id into the table and leaves
the sequence alone. -/
theorem handle_ids (fold : Char → Char) (w : World) (env : Env) (req : Request)
    (hreq : ∀ body, req ≠ .create body) :
    ∀ x ∈ (handle fold w env req).world.db.rows, ∃ y ∈ w.db.rows, y.id = x.id := by
  have hdb := handle_db fold w env req
  have hstmt : ∀ x ∈ (statementOf fold env req w.db).2.rows, ∃ y ∈ w.db.rows, y.id = x.id := by
    cases req with
    | list q limit offset =>
      simp only [statementOf, selectList_db]
      exact fun x hx => ⟨x, hx, rfl⟩
    | get id =>
      simp only [statementOf, selectById_db]
      exact fun x hx => ⟨x, hx, rfl⟩
    | create body => exact absurd rfl (hreq body)
    | update id body =>
      simp only [statementOf]
      rcases updateTask_db body.title.toParam body.description.toParam body.status.toParam
        body.priority.toParam id w.db with h | ⟨f, hf, h⟩
      · rw [h]; exact fun x hx => ⟨x, hx, rfl⟩
      · rw [h]
        intro x hx
        obtain ⟨y, hy, rfl⟩ := List.mem_map.1 hx
        exact ⟨y, hy, (hf y).symm⟩
    | delete id =>
      simp only [statementOf]
      rcases deleteRows_db id w.db with h | h
      · rw [h]; exact fun x hx => ⟨x, hx, rfl⟩
      · rw [h]
        intro x hx
        exact ⟨x, (List.mem_filter.1 hx).1, rfl⟩
  rcases env with ⟨fault, now⟩
  cases fault with
  | none => simp only at hdb; rw [hdb]; exact hstmt
  | connect err => simp only at hdb; rw [hdb]; exact fun x hx => ⟨x, hx, rfl⟩
  | query err => simp only at hdb; rw [hdb]; exact fun x hx => ⟨x, hx, rfl⟩

theorem statement_invariants (fold : Char → Char) (env : Env) (req : Request) (db : Db)
    (hvalid : db.Valid) (hserial : db.Serial) :
    (statementOf fold env req db).2.Valid ∧ (statementOf fold env req db).2.Serial := by
  cases req with
  | list q limit offset => simp only [statementOf, selectList_db]; exact ⟨hvalid, hserial⟩
  | get id => simp only [statementOf, selectById_db]; exact ⟨hvalid, hserial⟩
  | create body =>
    simp only [statementOf]
    rcases insertTask_db env.now body.title.toParam body.description.toParam
      (body.status.withDefault "pending") (body.priority.withDefault "low") db
      with h | h | ⟨r, hr, hseq, h⟩
    · rw [h]; exact ⟨hvalid, hserial⟩
    · rw [h]
      refine ⟨hvalid, ?_⟩
      intro x hx
      have := hserial x hx
      simp only [Nat.cast_add, Nat.cast_one]
      omega
    · rw [h]
      constructor
      · intro x hx
        rcases List.mem_append.1 hx with hx | hx
        · exact hvalid x hx
        · rw [List.mem_singleton.1 hx, hr]
          simp only [inInt4, decide_eq_true_eq]
          omega
      · intro x hx
        rcases List.mem_append.1 hx with hx | hx
        · have := hserial x hx
          simp only [Nat.cast_add, Nat.cast_one]
          omega
        · rw [List.mem_singleton.1 hx, hr]
  | update id body =>
    simp only [statementOf]
    rcases updateTask_db body.title.toParam body.description.toParam body.status.toParam
      body.priority.toParam id db with h | ⟨f, hf, h⟩
    · rw [h]; exact ⟨hvalid, hserial⟩
    · rw [h]
      constructor
      · intro x hx
        obtain ⟨y, hy, rfl⟩ := List.mem_map.1 hx
        rw [hf y]; exact hvalid y hy
      · intro x hx
        obtain ⟨y, hy, rfl⟩ := List.mem_map.1 hx
        rw [hf y]; exact hserial y hy
  | delete id =>
    simp only [statementOf]
    rcases deleteRows_db id db with h | h
    · rw [h]; exact ⟨hvalid, hserial⟩
    · rw [h]
      exact ⟨fun x hx => hvalid x (List.mem_filter.1 hx).1,
        fun x hx => hserial x (List.mem_filter.1 hx).1⟩

/-- Both invariants of the table hold of the empty table and are kept by every
request, whatever its outcome. -/
theorem invariants_kept (fold : Char → Char) (w : World) (reqs : List (Env × Request))
    (hvalid : w.db.Valid) (hserial : w.db.Serial) :
    Db.empty.Valid ∧ Db.empty.Serial
      ∧ (after fold w reqs).db.Valid ∧ (after fold w reqs).db.Serial := by
  refine ⟨fun r hr => by simp [Db.empty] at hr, fun r hr => by simp [Db.empty] at hr, ?_⟩
  induction reqs generalizing w with
  | nil => exact ⟨hvalid, hserial⟩
  | cons p rest ih =>
    obtain ⟨env, req⟩ := p
    simp only [after]
    have hdb := handle_db fold w env req
    have hst := statement_invariants fold env req w.db hvalid hserial
    rcases env with ⟨fault, now⟩
    cases fault with
    | none =>
      simp only at hdb
      exact ih _ (by rw [hdb]; exact hst.1) (by rw [hdb]; exact hst.2)
    | connect err =>
      simp only at hdb
      exact ih _ (by rw [hdb]; exact hvalid) (by rw [hdb]; exact hserial)
    | query err =>
      simp only at hdb
      exact ih _ (by rw [hdb]; exact hvalid) (by rw [hdb]; exact hserial)

/-! ## C3: not found exactly when no row has the id -/

/-- C3.  For GET /tasks/:id, PUT /tasks/:id and DELETE /tasks/:id, whenever the
database round trip succeeds (`roundTrip` returns rows), the response is
404 `{error: "Task not found"}` exactly when no row of the table has the
requested id; when a row has it the response is 200, with the matching row
for GET, the row after the update for PUT and `{success: true}` for DELETE.
A 404 response leaves the database as it was. -/
theorem notFound_iff_no_row (fold : Char → Char) (w : World) (env : Env) (id : Int) (body : Body) :
    ((∃ rows, roundTrip fold w env (.get id) = .ok rows) →
      ((getTaskById w env id).response = notFound ↔ ∀ r ∈ w.db.rows, r.id ≠ id)
      ∧ ((∃ r ∈ w.db.rows, r.id = id) →
          ∃ m ∈ w.db.rows, m.id = id ∧ (getTaskById w env id).response = ⟨200, .task m⟩)
      ∧ ((getTaskById w env id).response = notFound → (getTaskById w env id).world.db = w.db))
    ∧ ((∃ rows, roundTrip fold w env (.update id body) = .ok rows) →
      ((putTask w env id body).response = notFound ↔ ∀ r ∈ w.db.rows, r.id ≠ id)
      ∧ ((∃ r ∈ w.db.rows, r.id = id) →
          ∃ m ∈ w.db.rows, m.id = id ∧ ∃ t, body.title = .text t
            ∧ (putTask w env id body).response
                = ⟨200, .task (assign t body.description.toParam body.status.toParam
                    body.priority.toParam m)⟩
            ∧ assign t body.description.toParam body.status.toParam body.priority.toParam m
                ∈ (putTask w env id body).world.db.rows)
      ∧ ((putTask w env id body).response = notFound → (putTask w env id body).world.db = w.db))
    ∧ ((∃ rows, roundTrip fold w env (.delete id) = .ok rows) →
      ((deleteTask w env id).response = notFound ↔ ∀ r ∈ w.db.rows, r.id ≠ id)
      ∧ ((∃ r ∈ w.db.rows, r.id = id) → (deleteTask w env id).response = ⟨200, .success true⟩)
      ∧ ((deleteTask w env id).response = notFound → (deleteTask w env id).world.db = w.db)) := by
  refine ⟨?_, ?_, ?_⟩
  · rintro ⟨rows, hok⟩
    obtain ⟨h1, h2, h3⟩ := getTaskById_spec fold w env id rows hok
    exact ⟨h1, h2, fun _ => h3⟩
  · rintro ⟨rows, hok⟩
    obtain ⟨h1, h2, h3, _⟩ := putTask_spec fold w env id body rows hok
    refine ⟨h1, ?_, h3⟩
    intro hex
    obtain ⟨m, hm, hmid, t, ht, hresp, hrows⟩ := h2 hex
    refine ⟨m, hm, hmid, t, ht, hresp, ?_⟩
    rw [hrows]
    exact List.mem_map.2 ⟨m, hm, by simp [hmid]⟩
  · rintro ⟨rows, hok⟩
    obtain ⟨h1, h2, h3, h4⟩ := deleteTask_spec fold w env id rows hok
    refine ⟨h1, h2, ?_⟩
    intro hnf
    have hall := h1.1 hnf
    have hrows : (deleteTask w env id).world.db.rows = w.db.rows := by
      rw [h3]
      exact List.filter_eq_self.2 (fun r hr => by simpa using hall r hr)
    cases hd : (deleteTask w env id).world.db with
    | mk rows1 seq1 =>
      rw [hd] at hrows h4
      cases hw : w.db with
      | mk rows0 seq0 =>
        rw [hw] at hrows h4
        simp only at hrows h4
        rw [hrows, h4]

/-- Witness of C3: on `exampleWorld`, whose only row has id 1, the three round
trips for id 1 succeed. -/
theorem notFound_iff_no_row_witness :
    (∃ rows, roundTrip Char.toLower exampleWorld quiet (.get 1) = .ok rows)
    ∧ (∃ rows, roundTrip Char.toLower exampleWorld quiet (.update 1 fullBody) = .ok rows)
    ∧ (∃ rows, roundTrip Char.toLower exampleWorld quiet (.delete 1) = .ok rows)
    ∧ ¬ (getTaskById exampleWorld quiet 1).response = notFound
    ∧ ¬ (putTask exampleWorld quiet 1 fullBody).response = notFound
    ∧ ¬ (deleteTask exampleWorld quiet 1).response = notFound := by
  have h := notFound_iff_no_row Char.toLower exampleWorld quiet 1 fullBody
  have hrow : ¬ ∀ r ∈ exampleWorld.db.rows, r.id ≠ 1 := fun hall =>
    hall exampleRow (List.mem_singleton.2 rfl) rfl
  refine ⟨⟨_, rfl⟩, ⟨_, rfl⟩, ⟨_, rfl⟩, ?_, ?_, ?_⟩
  · exact fun hnf => hrow ((h.1 ⟨_, rfl⟩).1.1 hnf)
  · exact fun hnf => hrow ((h.2.1 ⟨_, rfl⟩).1.1 hnf)
  · exact fun hnf => hrow ((h.2.2 ⟨_, rfl⟩).1.1 hnf)

/-! ## C9: one response for every failure of the round trip -/

theorem handle_error (fold : Char → Char) (w : World) (env : Env) (req : Request) (err : String)
    (h : roundTrip fold w env req = .error err) :
    (handle fold w env req).response = dbError := by
  cases req with
  | list q limit offset => simp only [handle, getTasks_response fold, h]
  | get id => simp only [handle, getTaskById_response fold, h]
  | create body => simp only [handle, postTask_response fold, h]
  | update id body => simp only [handle, putTask_response fold, h]
  | delete id => simp only [handle, deleteTask_response fold, h]

theorem insertRow_null_title (now : Int) (description status priority : Option String)
    (db : Db) : ∃ err, (insertRow now none description status priority db).1 = .error err := by
  unfold insertRow
  split
  · exact ⟨_, rfl⟩
  · exact ⟨_, rfl⟩

theorem insertTask_null_title (now : Int) (description status priority : Option String)
    (db : Db) : ∃ err, (insertTask now none description status priority db).1 = .error err := by
  unfold insertTask
  split
  · exact insertRow_null_title now description status priority db
  · exact ⟨_, rfl⟩

/-- C9.  On each of the five routes, every failure of the database round trip
(the connection fails, the query fails on its own account, or the statement
raises an error such as a constraint violation) is answered with status 500
and body `{error: "Database error"}`.  The response does not depend on the
error: runs that differ only in the error raised answer the same.  A POST
/tasks without title is such a failure. -/
theorem database_error_uniform (fold : Char → Char) (w : World) (env : Env) (req : Request) :
    (∀ err, roundTrip fold w env req = .error err → (handle fold w env req).response = dbError)
    ∧ (∀ err now, (handle fold w ⟨.connect err, now⟩ req).response = dbError)
    ∧ (∀ err now, (handle fold w ⟨.query err, now⟩ req).response = dbError)
    ∧ (∀ body, body.title = .absent → (postTask w env body).response = dbError) := by
  refine ⟨fun err h => handle_error fold w env req err h, ?_, ?_, ?_⟩
  · intro err now
    exact handle_error fold w _ req err rfl
  · intro err now
    exact handle_error fold w _ req err rfl
  · intro body hbody
    rcases env with ⟨fault, now⟩
    cases fault with
    | connect err => exact handle_error fold w _ (.create body) err rfl
    | query err => exact handle_error fold w _ (.create body) err rfl
    | none =>
      obtain ⟨err, herr⟩ := insertTask_null_title now body.description.toParam
        (body.status.withDefault "pending") (body.priority.withDefault "low") w.db
      refine handle_error fold w _ (.create body) err ?_
      simp only [roundTrip, query, statementOf, hbody, Field.toParam]
      exact herr

/-- Witness of C9: a POST /tasks with body `{}` fails at the not-null
constraint of `title` and is answered with the database error. -/
theorem database_error_uniform_witness :
    roundTrip Char.toLower exampleWorld quiet (.create emptyBody)
        = .error "null value in column title violates not-null constraint"
    ∧ (handle Char.toLower exampleWorld quiet (.create emptyBody)).response = dbError :=
  ⟨rfl, (database_error_uniform Char.toLower exampleWorld quiet (.create emptyBody)).1 _ rfl⟩

/-! ## C10: one client per request, closed once -/

theorem handle_clients (fold : Char → Char) (w : World) (env : Env) (req : Request) :
    (handle fold w env req).world.clients = w.clients + 1 := by
  cases req <;> rcases env with ⟨fault, now⟩ <;> cases fault <;>
    simp only [handle, getTasks, getTaskById, postTask, putTask, deleteTask, getClient, query] <;>
    first
      | rfl
      | (split <;> simp_all)

theorem handle_calls (fold : Char → Char) (w : World) (env : Env) (req : Request) :
    clientCalls (handle fold w env req).trace
        = [.getClient w.clients, .connect w.clients, .clientEnd w.clients]
      ∨ ∃ sql, clientCalls (handle fold w env req).trace
        = [.getClient w.clients, .connect w.clients, .query w.clients sql, .clientEnd w.clients] := by
  cases req <;> rcases env with ⟨fault, now⟩ <;> cases fault <;>
    simp only [handle, getTasks, getTaskById, postTask, putTask, deleteTask, getClient, query] <;>
    first
      | (left; rfl)
      | (split <;> simp [clientCalls])
      | simp [clientCalls]

/-- C10.  When requests are served one after the other from a world in which
`w.clients` clients were created, the calls made for the request at position
`i`, whatever its route and whatever the round trip does, are exactly:
`getClient` creating client number `w.clients + i`, which no earlier request
had; `connect` on it; at most one `query` on it; and one `client.end()` on it,
last.  No call is made on any other client. -/
theorem connection_discipline (fold : Char → Char) (w : World) (reqs : List (Env × Request))
    (i : Nat) (o : Outcome) (h : (serve fold w reqs)[i]? = some o) :
    clientCalls o.trace
        = [.getClient (w.clients + i), .connect (w.clients + i), .clientEnd (w.clients + i)]
      ∨ ∃ sql, clientCalls o.trace
        = [.getClient (w.clients + i), .connect (w.clients + i), .query (w.clients + i) sql,
           .clientEnd (w.clients + i)] := by
  induction reqs generalizing w i with
  | nil => simp [serve] at h
  | cons p rest ih =>
    obtain ⟨env, req⟩ := p
    cases i with
    | zero =>
      simp only [serve, List.getElem?_cons_zero, Option.some.injEq] at h
      subst h
      simpa using handle_calls fold w env req
    | succ j =>
      simp only [serve, List.getElem?_cons_succ] at h
      have := ih (handle fold w env req).world j h
      rw [handle_clients] at this
      have e : w.clients + 1 + j = w.clients + (j + 1) := by omega
      rw [e] at this
      exact this

/-- Witness of C10: of the three `exampleRequests` the second finds the
connection refused; its calls are made on the second client. -/
theorem connection_discipline_witness :
    (serve Char.toLower exampleWorld exampleRequests)[1]?
      = some (deleteTask ⟨exampleWorld.db, 1⟩ refused 1)
    ∧ (clientCalls (deleteTask ⟨exampleWorld.db, 1⟩ refused 1).trace
          = [.getClient (exampleWorld.clients + 1), .connect (exampleWorld.clients + 1),
             .clientEnd (exampleWorld.clients + 1)]
        ∨ ∃ sql, clientCalls (deleteTask ⟨exampleWorld.db, 1⟩ refused 1).trace
          = [.getClient (exampleWorld.clients + 1), .connect (exampleWorld.clients + 1),
             .query (exampleWorld.clients + 1) sql, .clientEnd (exampleWorld.clients + 1)]) :=
  ⟨rfl, connection_discipline Char.toLower exampleWorld exampleRequests 1 _ rfl⟩

/-! ## The insert -/

theorem insertRow_ok (now : Int) (title description status priority : Option String) (db : Db)
    (rows : List Task) (h : (insertRow now title description status priority db).1 = .ok rows) :
    ∃ t, title = some t ∧ db.seq < 2147483647
      ∧ (∀ r ∈ db.rows, r.id ≠ ((db.seq + 1 : Nat) : Int))
      ∧ rows = [⟨((db.seq + 1 : Nat) : Int), t, description, status, some now, priority⟩]
      ∧ (insertRow now title description status priority db).2
          = ⟨db.rows ++ [⟨((db.seq + 1 : Nat) : Int), t, description, status, some now, priority⟩],
             db.seq + 1⟩ := by
  unfold insertRow at h ⊢
  by_cases hseq : 2147483647 ≤ db.seq
  · rw [if_pos hseq] at h
    cases h
  · rw [if_neg hseq] at h ⊢
    cases title with
    | none => cases h
    | some t =>
      simp only at h ⊢
      by_cases hany : (db.rows.any (fun r => r.id = ((db.seq + 1 : Nat) : Int))) = true
      · rw [if_pos hany] at h
        cases h
      · rw [if_neg hany] at h ⊢
        refine ⟨t, rfl, by omega, ?_, ?_, rfl⟩
        · intro r hr hrid
          apply hany
          simp only [List.any_eq_true, decide_eq_true_eq]
          exact ⟨r, hr, hrid⟩
        · cases h
          rfl

theorem insertTask_ok (now : Int) (title description status priority : Option String) (db : Db)
    (rows : List Task) (h : (insertTask now title description status priority db).1 = .ok rows) :
    ∃ t, title = some t ∧ db.seq < 2147483647
      ∧ (∀ r ∈ db.rows, r.id ≠ ((db.seq + 1 : Nat) : Int))
      ∧ rows = [⟨((db.seq + 1 : Nat) : Int), t, description, status, some now, priority⟩]
      ∧ (insertTask now title description status priority db).2
          = ⟨db.rows ++ [⟨((db.seq + 1 : Nat) : Int), t, description, status, some now, priority⟩],
             db.seq + 1⟩ := by
  unfold insertTask at h ⊢
  by_cases hp : (textParam title && textParam description && textParam status
      && textParam priority) = true
  · rw [if_pos hp] at h ⊢
    exact insertRow_ok _ _ _ _ _ _ _ h
  · rw [if_neg hp] at h
    cases h

theorem insertRow_succeeds (now : Int) (t : String) (description status priority : Option String)
    (db : Db) (hserial : db.Serial) (hseq : db.seq < 2147483647) :
    (insertRow now (some t) description status priority db).1
      = .ok [⟨((db.seq + 1 : Nat) : Int), t, description, status, some now, priority⟩] := by
  unfold insertRow
  have h1 : ¬ 2147483647 ≤ db.seq := by omega
  have h2 : ¬ (db.rows.any (fun r => r.id = ((db.seq + 1 : Nat) : Int))) = true := by
    simp only [List.any_eq_true, decide_eq_true_eq, not_exists, not_and]
    intro r hr hrid
    have := hserial r hr
    omega
  simp only [h1, if_false, h2]
  rfl

theorem insertTask_succeeds (now : Int) (t : String) (description status priority : Option String)
    (db : Db) (hserial : db.Serial) (hseq : db.seq < 2147483647)
    (hp : (textParam (some t) && textParam description && textParam status
      && textParam priority) = true) :
    (insertTask now (some t) description status priority db).1
      = .ok [⟨((db.seq + 1 : Nat) : Int), t, description, status, some now, priority⟩] := by
  unfold insertTask
  rw [if_pos hp]
  exact insertRow_succeeds now t description status priority db hserial hseq

theorem postTask_created (fold : Char → Char) (w : World) (env : Env) (body : Body) (r : Task)
    (h : (postTask w env body).response = ⟨201, .task r⟩) :
    ∃ rest, roundTrip fold w env (.create body) = .ok (r :: rest) := by
  rw [postTask_response fold] at h
  split at h
  · simp [dbError] at h
  · simp at h
  · rename_i r1 rest heq
    simp only [Response.mk.injEq, Payload.task.injEq, true_and] at h
    exact ⟨rest, by rw [heq, h]⟩

theorem filter_id_append_new (rows : List Task) (r : Task) (h : ∀ x ∈ rows, x.id ≠ r.id) :
    (rows ++ [r]).filter (fun x => x.id = r.id) = [r] := by
  rw [List.filter_append, (filter_id_nil_iff rows r.id).2 h]
  simp

/-! ## Binding of the text parameters -/

theorem textParam_toParam (f : Field) : textParam f.toParam = f.clean := by
  cases f <;> rfl

theorem textParam_withDefault (d : String) (hd : cleanText d = true) (f : Field) :
    textParam (f.withDefault d) = f.clean := by
  cases f
  · exact hd
  · rfl
  · rfl

/-- The parameters of the update are bound exactly when the body is clean. -/
theorem update_params (body : Body) :
    (textParam body.title.toParam && textParam body.description.toParam
      && textParam body.status.toParam && textParam body.priority.toParam) = body.clean := by
  simp only [textParam_toParam, Body.clean]

/-- The parameters of the insert are bound exactly when the body is clean. -/
theorem insert_params (body : Body) :
    (textParam body.title.toParam && textParam body.description.toParam
      && textParam (body.status.withDefault "pending")
      && textParam (body.priority.withDefault "low")) = body.clean := by
  rw [textParam_withDefault "pending" (by decide), textParam_withDefault "low" (by decide)]
  simp only [textParam_toParam, Body.clean]

/-- A create whose body holds U+0000 fails when its parameters are bound: the
response is the database error and the database is as it was. -/
theorem postTask_unclean (w : World) (env : Env) (body : Body) (h : body.clean = false) :
    (postTask w env body).response = dbError ∧ (postTask w env body).world.db = w.db := by
  have hstmt : statementOf (fun c => c) env (.create body) w.db
      = (.error "invalid byte sequence for encoding UTF8: 0x00", w.db) := by
    simp only [statementOf, insertTask, insert_params, h]
    rfl
  have hdb := handle_db (fun c => c) w env (.create body)
  rw [hstmt] at hdb
  constructor
  · rcases env with ⟨fault, now⟩
    cases fault with
    | connect err => exact handle_error (fun c => c) w _ (.create body) err rfl
    | query err => exact handle_error (fun c => c) w _ (.create body) err rfl
    | none =>
      refine handle_error (fun c => c) w _ (.create body)
        "invalid byte sequence for encoding UTF8: 0x00" ?_
      rw [roundTrip_none _ _ _ _ rfl, hstmt]
  · rcases env with ⟨fault, now⟩
    cases fault <;> exact hdb

/-- An update whose body holds U+0000 fails when its parameters are bound. -/
theorem putTask_unclean (w : World) (env : Env) (id : Int) (body : Body)
    (h : body.clean = false) :
    (putTask w env id body).response = dbError ∧ (putTask w env id body).world.db = w.db := by
  have hstmt : statementOf (fun c => c) env (.update id body) w.db
      = (.error "invalid byte sequence for encoding UTF8: 0x00", w.db) := by
    simp only [statementOf, updateTask, update_params, h]
    rfl
  have hdb := handle_db (fun c => c) w env (.update id body)
  rw [hstmt] at hdb
  constructor
  · rcases env with ⟨fault, now⟩
    cases fault with
    | connect err => exact handle_error (fun c => c) w _ (.update id body) err rfl
    | query err => exact handle_error (fun c => c) w _ (.update id body) err rfl
    | none =>
      refine handle_error (fun c => c) w _ (.update id body)
        "invalid byte sequence for encoding UTF8: 0x00" ?_
      rw [roundTrip_none _ _ _ _ rfl, hstmt]
  · rcases env with ⟨fault, now⟩
    cases fault <;> exact hdb

/-! ## C1: a created task is fetched back -/

/-- C1.  For every state of the table and every body, when POST /tasks answers
201 with row `r`, a GET /tasks/`r.id` that follows it (and meets no fault)
answers 200 with the same row `r`: same title, description, status and
priority (and same id and created_at).  These four are the body's values
wherever the body gave one: a string is stored as it is, `null` as NULL. -/
theorem create_then_fetch (w : World) (env env2 : Env) (body : Body) (r : Task)
    (hpost : (postTask w env body).response = ⟨201, .task r⟩) (hquiet : env2.fault = .none) :
    (getTaskById (postTask w env body).world env2 r.id).response = ⟨200, .task r⟩
    ∧ body.title = .text r.title
    ∧ (∀ s, body.description = .text s → r.description = some s)
    ∧ (body.description = .null → r.description = none)
    ∧ (∀ s, body.status = .text s → r.status = some s)
    ∧ (body.status = .null → r.status = none)
    ∧ (∀ s, body.priority = .text s → r.priority = some s)
    ∧ (body.priority = .null → r.priority = none) := by
  obtain ⟨rest, hrt⟩ := postTask_created id w env body r hpost
  obtain ⟨hfault, hstmt⟩ := roundTrip_ok id w env _ _ hrt
  have hdb := handle_db id w env (.create body)
  simp only [handle, hfault, statementOf] at hdb hstmt
  obtain ⟨t, htitle, hseq, hfresh, hrows, hdb2⟩ := insertTask_ok _ _ _ _ _ _ _ hstmt
  rw [hdb2] at hdb
  simp only [List.cons.injEq] at hrows
  obtain ⟨hr, -⟩ := hrows
  rw [← hr] at hdb
  have hrid : r.id = ((w.db.seq + 1 : Nat) : Int) := by rw [hr]
  have hin : inInt4 r.id = true := by
    rw [hrid]
    simp only [inInt4, decide_eq_true_eq]
    omega
  have hget : roundTrip id (postTask w env body).world env2 (.get r.id) = .ok [r] := by
    rw [roundTrip_none id _ env2 _ hquiet]
    simp only [statementOf, selectById, hin, if_true, hdb]
    rw [filter_id_append_new _ _ (by rw [hrid]; exact hfresh)]
  refine ⟨by rw [getTaskById_response id, hget], ?_, ?_, ?_, ?_, ?_, ?_, ?_⟩
  · rw [hr]; exact (toParam_eq_some _ _).1 htitle
  · intro s hs; rw [hr]; simp [hs, Field.toParam]
  · intro hs; rw [hr]; simp [hs, Field.toParam]
  · intro s hs; rw [hr]; simp [hs, Field.withDefault]
  · intro hs; rw [hr]; simp [hs, Field.withDefault]
  · intro s hs; rw [hr]; simp [hs, Field.withDefault]
  · intro hs; rw [hr]; simp [hs, Field.withDefault]

/-- Witness of C1: creating `fullBody` on `exampleWorld` answers 201 with the
row of id 2. -/
theorem create_then_fetch_witness :
    (postTask exampleWorld quiet fullBody).response
        = ⟨201, .task ⟨2, "Buy Bread", some "wholemeal", some "done", some 200, some "high"⟩⟩
    ∧ quiet.fault = .none
    ∧ (getTaskById (postTask exampleWorld quiet fullBody).world quiet 2).response
        = ⟨200, .task ⟨2, "Buy Bread", some "wholemeal", some "done", some 200, some "high"⟩⟩ :=
  ⟨rfl, rfl, (create_then_fetch exampleWorld quiet quiet fullBody
    ⟨2, "Buy Bread", some "wholemeal", some "done", some 200, some "high"⟩ rfl rfl).1⟩

/-! ## C8: defaults of a created task -/

/-- C8 as stated fails for a title that holds U+0000: the body `nulTitle` has a
non-null title and omits status and priority, yet the POST is answered with
the database error and nothing is stored, though the round trip meets no
fault. -/
theorem create_nul_title_refused :
    nulTitle.title = .text (String.mk ['a', nulChar, 'b'])
    ∧ nulTitle.status = .absent ∧ nulTitle.priority = .absent
    ∧ quiet.fault = .none
    ∧ (postTask exampleWorld quiet nulTitle).response = dbError
    ∧ (postTask exampleWorld quiet nulTitle).world.db.rows = exampleWorld.db.rows := by
  decide

/-- C8, amended.  A POST /tasks whose body has a string title and holds no
U+0000 in any of its strings succeeds whenever the round trip meets no fault,
the ids of the table came from its sequence and the sequence is not
exhausted.  Whenever the insert succeeds, the response is 201 with the row
stored at the end of the table: its title is the body's, its description the
body's (NULL when omitted), its status "pending" and its priority "low" when
the body omits them and the supplied value otherwise (NULL for a supplied
`null`), its created_at is the time of the insert, not NULL, and no row of
the table had its id before.  A body with a string that holds U+0000 is
answered 500 `{error: "Database error"}` and the table is unchanged. -/
theorem create_defaults (fold : Char → Char) (w : World) (env : Env) (body : Body) :
    (∀ t, body.title = .text t → body.clean = true → env.fault = .none → w.db.Serial →
      w.db.seq < 2147483647 → ∃ rows, roundTrip fold w env (.create body) = .ok rows)
    ∧ (∀ rows, roundTrip fold w env (.create body) = .ok rows →
      ∃ r, (postTask w env body).response = ⟨201, .task r⟩
        ∧ (postTask w env body).world.db.rows = w.db.rows ++ [r]
        ∧ (∀ x ∈ w.db.rows, x.id ≠ r.id)
        ∧ body.title = .text r.title
        ∧ r.created_at = some env.now
        ∧ (body.description = .absent → r.description = none)
        ∧ (∀ s, body.description = .text s → r.description = some s)
        ∧ (body.status = .absent → r.status = some "pending")
        ∧ (∀ s, body.status = .text s → r.status = some s)
        ∧ (body.priority = .absent → r.priority = some "low")
        ∧ (∀ s, body.priority = .text s → r.priority = some s)
        ∧ (body.status = .null → r.status = none)
        ∧ (body.priority = .null → r.priority = none))
    ∧ (body.clean = false →
        (postTask w env body).response = dbError ∧ (postTask w env body).world.db = w.db) := by
  refine ⟨?_, ?_, postTask_unclean w env body⟩
  · intro t ht hclean hquiet hserial hseq
    rw [roundTrip_none fold w env _ hquiet]
    have hp := insert_params body
    rw [hclean] at hp
    simp only [statementOf, ht, Field.toParam] at hp ⊢
    exact ⟨_, insertTask_succeeds _ _ _ _ _ _ hserial hseq hp⟩
  · intro rows hrt
    obtain ⟨hfault, hstmt⟩ := roundTrip_ok fold w env _ _ hrt
    have hdb := handle_db fold w env (.create body)
    simp only [handle, hfault, statementOf] at hdb hstmt
    obtain ⟨t, htitle, hseq, hfresh, hrows, hdb2⟩ := insertTask_ok _ _ _ _ _ _ _ hstmt
    rw [hdb2] at hdb
    subst hrows
    refine ⟨_, by rw [postTask_response fold, hrt], by rw [hdb], hfresh,
      (toParam_eq_some _ _).1 htitle, rfl, ?_, ?_, ?_, ?_, ?_, ?_, ?_, ?_⟩
    · intro hs; simp [hs, Field.toParam]
    · intro s hs; simp [hs, Field.toParam]
    · intro hs; simp [hs, Field.withDefault]
    · intro s hs; simp [hs, Field.withDefault]
    · intro hs; simp [hs, Field.withDefault]
    · intro s hs; simp [hs, Field.withDefault]
    · intro hs; simp [hs, Field.withDefault]
    · intro hs; simp [hs, Field.withDefault]

/-- Witness of C8: `{"title": "Write spec"}` on `exampleWorld`. -/
theorem create_defaults_witness :
    titleOnly.title = .text "Write spec" ∧ titleOnly.clean = true ∧ quiet.fault = .none
    ∧ exampleWorld.db.Serial ∧ exampleWorld.db.seq < 2147483647
    ∧ (∃ rows, roundTrip Char.toLower exampleWorld quiet (.create titleOnly) = .ok rows)
    ∧ (postTask exampleWorld quiet titleOnly).response
        = ⟨201, .task ⟨2, "Write spec", none, some "pending", some 200, some "low"⟩⟩ := by
  have hserial : exampleWorld.db.Serial := by
    intro r hr
    rw [List.mem_singleton.1 hr]
    decide
  have hseq : exampleWorld.db.seq < 2147483647 := by decide
  have hclean : titleOnly.clean = true := by decide
  exact ⟨rfl, hclean, rfl, hserial, hseq,
    (create_defaults Char.toLower exampleWorld quiet titleOnly).1 _ rfl hclean rfl hserial hseq,
    rfl⟩

/-! ## C2: delete is terminal -/

theorem after_ids (fold : Char → Char) (w : World) (between : List (Env × Request))
    (hnc : ∀ p ∈ between, ∀ body, p.2 ≠ .create body) :
    ∀ x ∈ (after fold w between).db.rows, ∃ y ∈ w.db.rows, y.id = x.id := by
  induction between generalizing w with
  | nil => exact fun x hx => ⟨x, hx, rfl⟩
  | cons p rest ih =>
    obtain ⟨env, req⟩ := p
    intro x hx
    simp only [after] at hx
    obtain ⟨y, hy, hyx⟩ := ih (handle fold w env req).world
      (fun q hq => hnc q (List.mem_cons_of_mem _ hq)) x hx
    obtain ⟨z, hz, hzy⟩ := handle_ids fold w env req
      (fun body => hnc (env, req) (List.mem_cons_self _ _) body) y hy
    exact ⟨z, hz, hzy.trans hyx⟩

theorem deleteTask_deleted (fold : Char → Char) (w : World) (env : Env) (id : Int)
    (h : (deleteTask w env id).response = ⟨200, .success true⟩) :
    ∃ rows, roundTrip fold w env (.delete id) = .ok rows := by
  rw [deleteTask_response fold] at h
  split at h
  · simp [dbError] at h
  · simp [notFound] at h
  · rename_i heq
    exact ⟨_, heq⟩

/-- C2.  For every state of the table and every id: once DELETE /tasks/id has
answered 200, and after any requests that follow it other than creates
(whatever their outcome), a GET /tasks/id that meets no fault answers 404
`{error: "Task not found"}`, and so does a DELETE /tasks/id. -/
theorem delete_terminal (fold : Char → Char) (w : World) (env env2 : Env) (id : Int)
    (between : List (Env × Request))
    (hdel : (deleteTask w env id).response = ⟨200, .success true⟩)
    (hnc : ∀ p ∈ between, ∀ body, p.2 ≠ .create body)
    (hquiet : env2.fault = .none) :
    (getTaskById (after fold (deleteTask w env id).world between) env2 id).response = notFound
    ∧ (deleteTask (after fold (deleteTask w env id).world between) env2 id).response
        = notFound := by
  obtain ⟨rows, hok⟩ := deleteTask_deleted fold w env id hdel
  obtain ⟨-, -, hrows, -⟩ := deleteTask_spec fold w env id rows hok
  obtain ⟨hfault, hstmt⟩ := roundTrip_ok fold w env _ rows hok
  simp only [statementOf] at hstmt
  obtain ⟨hid, -, -⟩ := deleteRows_ok id w.db rows hstmt
  have hgone : ∀ x ∈ (after fold (deleteTask w env id).world between).db.rows, x.id ≠ id := by
    intro x hx hxid
    obtain ⟨y, hy, hyx⟩ := after_ids fold _ between hnc x hx
    rw [hrows] at hy
    have := (List.mem_filter.1 hy).2
    simp only [decide_not, Bool.not_eq_true', decide_eq_false_iff_not] at this
    exact this (hyx.trans hxid)
  have hnil := (filter_id_nil_iff _ id).2 hgone
  constructor
  · rw [getTaskById_response fold, roundTrip_none fold _ env2 _ hquiet]
    simp only [statementOf, selectById, hid, if_true, hnil]
  · rw [deleteTask_response fold, roundTrip_none fold _ env2 _ hquiet]
    simp only [statementOf, deleteRows, hid, if_true, hnil]

/-- Witness of C2: on `exampleWorld`, DELETE /tasks/1 answers 200; an update
and a fetch follow before the GET and the second DELETE. -/
theorem delete_terminal_witness :
    (deleteTask exampleWorld quiet 1).response = ⟨200, .success true⟩
    ∧ (getTaskById (after Char.toLower (deleteTask exampleWorld quiet 1).world
          [(quiet, .update 1 fullBody), (quiet, .get 1)]) quiet 1).response = notFound
    ∧ (deleteTask (after Char.toLower (deleteTask exampleWorld quiet 1).world
          [(quiet, .update 1 fullBody), (quiet, .get 1)]) quiet 1).response = notFound :=
  ⟨rfl, delete_terminal Char.toLower exampleWorld quiet quiet 1
    [(quiet, .update 1 fullBody), (quiet, .get 1)] rfl
    (by intro p hp body hcreate
        simp only [List.mem_cons, List.mem_singleton, List.not_mem_nil, or_false] at hp
        rcases hp with rfl | rfl <;> cases hcreate)
    rfl⟩

/-! ## C4 and C5: update -/

theorem filter_id_map (rows : List Task) (id : Int) (f : Task → Task) (hf : ∀ r, (f r).id = r.id) :
    (rows.map f).filter (fun r => r.id = id) = (rows.filter (fun r => r.id = id)).map f := by
  induction rows with
  | nil => rfl
  | cons r rest ih =>
    by_cases h : r.id = id
    · simp only [List.map_cons, List.filter_cons, hf r, h, decide_True, if_true, ih]
    · simp only [List.map_cons, List.filter_cons, hf r, h, decide_False, ih]
      rfl

theorem assign_id (t : String) (description status priority : Option String) (id : Int)
    (r : Task) :
    (if r.id = id then assign t description status priority r else r).id = r.id := by
  by_cases h : r.id = id <;> simp [h, assign]

/-- A PUT with a string title and no U+0000 in its strings, on an id of the
table, when the round trip meets no fault: the response is the first row of
that id with the four columns assigned, and every row of that id is so
assigned. -/
theorem putTask_existing (fold : Char → Char) (w : World) (env : Env) (id : Int) (body : Body)
    (t : String) (hvalid : w.db.Valid) (hquiet : env.fault = .none)
    (hex : ∃ m ∈ w.db.rows, m.id = id) (ht : body.title = .text t)
    (hclean : body.clean = true) :
    ∃ m ms, m ∈ w.db.rows ∧ m.id = id
      ∧ w.db.rows.filter (fun r => r.id = id) = m :: ms
      ∧ roundTrip fold w env (.update id body)
          = .ok ((m :: ms).map
              (assign t body.description.toParam body.status.toParam body.priority.toParam))
      ∧ (putTask w env id body).world.db.rows
          = w.db.rows.map (fun r => if r.id = id then
              assign t body.description.toParam body.status.toParam body.priority.toParam r
              else r)
      ∧ inInt4 id = true := by
  obtain ⟨m0, hm0, hm0id⟩ := hex
  have hid : inInt4 id = true := hm0id ▸ hvalid m0 hm0
  cases hf : w.db.rows.filter (fun r => r.id = id) with
  | nil => exact absurd hm0id ((filter_id_nil_iff _ _).1 hf m0 hm0)
  | cons m ms =>
    obtain ⟨hm, hmid⟩ := filter_id_cons _ _ _ _ hf
    have hp := update_params body
    rw [hclean] at hp
    have hrt : roundTrip fold w env (.update id body)
        = .ok ((m :: ms).map
            (assign t body.description.toParam body.status.toParam body.priority.toParam)) := by
      rw [roundTrip_none fold w env _ hquiet]
      simp only [statementOf, updateTask, hp, if_true]
      simp only [updateRows, hid, if_true, hf, ht, Field.toParam]
    obtain ⟨-, h2, -, -⟩ := putTask_spec fold w env id body _ hrt
    obtain ⟨m1, -, -, t1, ht1, -, hrows⟩ := h2 ⟨m, hm, hmid⟩
    have htt : t1 = t := by
      rw [ht] at ht1
      exact (Field.text.inj ht1).symm
    subst htt
    exact ⟨m, ms, hm, hmid, rfl, hrt, hrows, hid⟩

/-- C4 as stated fails for a string that holds U+0000: the body
`nulDescription` gives strings for all four properties, the id 1 exists and
the round trip meets no fault, yet the PUT is answered with the database
error and the stored row is not overwritten. -/
theorem update_nul_refused :
    quiet.fault = .none ∧ (∃ m ∈ exampleWorld.db.rows, m.id = 1)
    ∧ nulDescription
        = ⟨.text "x", .text (String.mk ['a', nulChar, 'b']), .text "done", .text "high"⟩
    ∧ (putTask exampleWorld quiet 1 nulDescription).response = dbError
    ∧ (putTask exampleWorld quiet 1 nulDescription).world.db.rows = [exampleRow] := by
  decide

/-- C4, amended.  For every table whose ids fit their column type, every id the
table has and every PUT body that gives strings `t`, `d`, `s`, `p` for title,
description, status and priority, when no fault is met.  If none of the four
strings holds U+0000, PUT /tasks/id answers 200, and a GET /tasks/id that
follows returns a row with title `t`, description `d`, status `s` and
priority `p`, and with the id and created_at that row `m` of the table had
before; in the table every row of another id is unchanged, in place.  If one
of the four strings holds U+0000, the PUT is answered 500
`{error: "Database error"}` and the table is unchanged. -/
theorem update_overwrites (w : World) (env env2 : Env) (id : Int) (t d s p : String)
    (hvalid : w.db.Valid) (hquiet : env.fault = .none) (hquiet2 : env2.fault = .none)
    (hex : ∃ m ∈ w.db.rows, m.id = id) :
    ((cleanText t && cleanText d && cleanText s && cleanText p) = true →
      ∃ m ∈ w.db.rows, m.id = id
        ∧ (putTask w env id ⟨.text t, .text d, .text s, .text p⟩).response
            = ⟨200, .task ⟨m.id, t, some d, some s, m.created_at, some p⟩⟩
        ∧ (getTaskById (putTask w env id ⟨.text t, .text d, .text s, .text p⟩).world env2
            id).response
            = ⟨200, .task ⟨m.id, t, some d, some s, m.created_at, some p⟩⟩
        ∧ (putTask w env id ⟨.text t, .text d, .text s, .text p⟩).world.db.rows
            = w.db.rows.map (fun r =>
                if r.id = id then ⟨r.id, t, some d, some s, r.created_at, some p⟩ else r))
    ∧ ((cleanText t && cleanText d && cleanText s && cleanText p) = false →
        (putTask w env id ⟨.text t, .text d, .text s, .text p⟩).response = dbError
        ∧ (putTask w env id ⟨.text t, .text d, .text s, .text p⟩).world.db = w.db) := by
  constructor
  · intro hclean
    obtain ⟨m, ms, hm, hmid, hf, hrt, hrows, hid⟩ :=
      putTask_existing (fun c => c) w env id ⟨.text t, .text d, .text s, .text p⟩ t hvalid hquiet
        hex rfl hclean
    subst hmid
    refine ⟨m, hm, rfl, ?_, ?_, hrows⟩
    · rw [putTask_response (fun c => c), hrt]
      rfl
    · rw [getTaskById_response (fun c => c), roundTrip_none (fun c => c) _ env2 _ hquiet2]
      simp only [statementOf, selectById, hid, if_true, hrows]
      rw [filter_id_map _ _ _ (assign_id _ _ _ _ m.id), hf]
      simp only [List.map_cons, if_true]
      rfl
  · intro hunclean
    exact putTask_unclean w env id ⟨.text t, .text d, .text s, .text p⟩ hunclean

/-- Witness of C4: overwriting the row of `exampleWorld`. -/
theorem update_overwrites_witness :
    exampleWorld.db.Valid ∧ quiet.fault = .none ∧ (∃ m ∈ exampleWorld.db.rows, m.id = 1)
    ∧ (cleanText "Buy Bread" && cleanText "wholemeal" && cleanText "done"
        && cleanText "high") = true
    ∧ ∃ m ∈ exampleWorld.db.rows, m.id = 1
      ∧ (putTask exampleWorld quiet 1 ⟨.text "Buy Bread", .text "wholemeal", .text "done",
          .text "high"⟩).response
          = ⟨200, .task ⟨m.id, "Buy Bread", some "wholemeal", some "done", m.created_at,
              some "high"⟩⟩
      ∧ (getTaskById (putTask exampleWorld quiet 1 ⟨.text "Buy Bread", .text "wholemeal",
          .text "done", .text "high"⟩).world quiet 1).response
          = ⟨200, .task ⟨m.id, "Buy Bread", some "wholemeal", some "done", m.created_at,
              some "high"⟩⟩
      ∧ (putTask exampleWorld quiet 1 ⟨.text "Buy Bread", .text "wholemeal", .text "done",
          .text "high"⟩).world.db.rows
          = exampleWorld.db.rows.map (fun r =>
              if r.id = 1 then ⟨r.id, "Buy Bread", some "wholemeal", some "done", r.created_at,
                some "high"⟩ else r) := by
  have hvalid : exampleWorld.db.Valid := by
    intro r hr
    rw [List.mem_singleton.1 hr]
    decide
  have hex : ∃ m ∈ exampleWorld.db.rows, m.id = 1 := ⟨exampleRow, List.mem_singleton.2 rfl, rfl⟩
  have hclean : (cleanText "Buy Bread" && cleanText "wholemeal" && cleanText "done"
      && cleanText "high") = true := by decide
  exact ⟨hvalid, rfl, hex, hclean,
    (update_overwrites exampleWorld quiet quiet 1 "Buy Bread" "wholemeal" "done" "high"
      hvalid rfl rfl hex).1 hclean⟩

/-- C5 as stated fails for title: a PUT with body `{}` on the row of
`exampleWorld` is answered with the database error, and the stored row keeps
its title (the table is unchanged) instead of getting a NULL title. -/
theorem omitted_title_refused :
    (putTask exampleWorld quiet 1 emptyBody).response = dbError
    ∧ (putTask exampleWorld quiet 1 emptyBody).world.db.rows = [exampleRow]
    ∧ exampleRow.title = "Buy Milk" := by
  decide

/-- C5, amended.  For every table whose ids fit their column type, every id
the table has and every PUT body, when no fault is met: if the body gives a
string title and none of its strings holds U+0000, the request answers 200
with the row after the update, and in every stored row of that id each of
description, status and priority that the body omits is NULL, whatever it was
before; if the body omits the title (or gives `null`), the request is
answered 500 `{error: "Database error"}` and the table is unchanged. -/
theorem update_omitted_fields (w : World) (env : Env) (id : Int) (body : Body)
    (hvalid : w.db.Valid) (hquiet : env.fault = .none) (hex : ∃ m ∈ w.db.rows, m.id = id) :
    (∀ t, body.title = .text t → body.clean = true →
      ∃ r ∈ (putTask w env id body).world.db.rows, r.id = id
        ∧ (putTask w env id body).response = ⟨200, .task r⟩
        ∧ ∀ x ∈ (putTask w env id body).world.db.rows, x.id = id →
            x.title = t
            ∧ (body.description = .absent → x.description = none)
            ∧ (body.status = .absent → x.status = none)
            ∧ (body.priority = .absent → x.priority = none))
    ∧ (body.title = .absent ∨ body.title = .null →
        (putTask w env id body).response = dbError ∧ (putTask w env id body).world.db = w.db) := by
  constructor
  · intro t ht hclean
    obtain ⟨m, ms, hm, hmid, hf, hrt, hrows, hid⟩ :=
      putTask_existing (fun c => c) w env id body t hvalid hquiet hex ht hclean
    refine ⟨assign t body.description.toParam body.status.toParam body.priority.toParam m,
      ?_, hmid, ?_, ?_⟩
    · rw [hrows]
      exact List.mem_map.2 ⟨m, hm, by simp [hmid]⟩
    · rw [putTask_response (fun c => c), hrt]
      rfl
    · intro x hx hxid
      rw [hrows] at hx
      obtain ⟨y, hy, rfl⟩ := List.mem_map.1 hx
      have hyid : y.id = id := by rw [← assign_id t body.description.toParam
        body.status.toParam body.priority.toParam id y]; exact hxid
      simp only [hyid, if_true, assign]
      refine ⟨trivial, ?_, ?_, ?_⟩ <;> intro h <;> simp [h, Field.toParam]
  · intro ht
    cases hclean : body.clean with
    | false => exact putTask_unclean w env id body hclean
    | true =>
      have hp := update_params body
      rw [hclean] at hp
      have htp : body.title.toParam = none := by
        rcases ht with h | h <;> simp [h, Field.toParam]
      obtain ⟨m0, hm0, hm0id⟩ := hex
      have hid : inInt4 id = true := hm0id ▸ hvalid m0 hm0
      cases hf : w.db.rows.filter (fun r => r.id = id) with
      | nil => exact absurd hm0id ((filter_id_nil_iff _ _).1 hf m0 hm0)
      | cons m ms =>
        have hstmt : statementOf (fun c => c) env (.update id body) w.db
            = (.error "null value in column title violates not-null constraint", w.db) := by
          simp only [statementOf, updateTask, hp, if_true]
          simp only [updateRows, hid, if_true, hf, htp]
        have hdb := handle_db (fun c => c) w env (.update id body)
        simp only [handle, hquiet, hstmt] at hdb
        refine ⟨?_, hdb⟩
        rw [putTask_response (fun c => c), roundTrip_none (fun c => c) w env _ hquiet, hstmt]

/-- Witness of C5: a PUT that gives the title alone on the row of
`exampleWorld`. -/
theorem update_omitted_fields_witness :
    exampleWorld.db.Valid ∧ quiet.fault = .none ∧ (∃ m ∈ exampleWorld.db.rows, m.id = 1)
    ∧ titleOnly.title = .text "Write spec" ∧ titleOnly.clean = true
    ∧ ∃ r ∈ (putTask exampleWorld quiet 1 titleOnly).world.db.rows, r.id = 1
        ∧ (putTask exampleWorld quiet 1 titleOnly).response = ⟨200, .task r⟩
        ∧ ∀ x ∈ (putTask exampleWorld quiet 1 titleOnly).world.db.rows, x.id = 1 →
            x.title = "Write spec"
            ∧ (titleOnly.description = .absent → x.description = none)
            ∧ (titleOnly.status = .absent → x.status = none)
            ∧ (titleOnly.priority = .absent → x.priority = none) := by
  have hvalid : exampleWorld.db.Valid := by
    intro r hr
    rw [List.mem_singleton.1 hr]
    decide
  have hex : ∃ m ∈ exampleWorld.db.rows, m.id = 1 := ⟨exampleRow, List.mem_singleton.2 rfl, rfl⟩
  have hclean : titleOnly.clean = true := by decide
  exact ⟨hvalid, rfl, hex, rfl, hclean,
    (update_omitted_fields exampleWorld quiet 1 titleOnly hvalid rfl hex).1 "Write spec" rfl
      hclean⟩

/-! ## Pattern matching -/

theorem anySuffix_isSome (k : List Char → Option Bool) (hk : ∀ t, (k t).isSome = true)
    (t : List Char) : (anySuffix k t).isSome = true := by
  induction t with
  | nil => exact hk []
  | cons c t ih =>
    unfold anySuffix
    have h := hk (c :: t)
    cases hkt : k (c :: t) with
    | none => rw [hkt] at h; cases h
    | some b => cases b <;> simp [ih]

theorem anySuffix_true_of_head (k : List Char → Option Bool) (t : List Char)
    (h : k t = some true) : anySuffix k t = some true := by
  cases t with
  | nil => exact h
  | cons c t => unfold anySuffix; rw [h]

theorem likeMatch_nil (fold : Char → Char) (t : List Char) :
    likeMatch fold [] t = some t.isEmpty := by
  unfold likeMatch; rfl

theorem likeMatch_cons (fold : Char → Char) (c : Char) (p t : List Char) :
    likeMatch fold (c :: p) t
      = if c = '%' then anySuffix (likeMatch fold p) t
        else if c = '_' then
          match t with
          | [] => some false
          | _ :: t1 => likeMatch fold p t1
        else if c = escapeChar then
          match p with
          | [] =>
            match t with
            | [] => some false
            | _ :: _ => none
          | e :: p1 =>
            match t with
            | [] => some false
            | d :: t1 => if fold e = fold d then likeMatch fold p1 t1 else some false
        else
          match t with
          | [] => some false
          | d :: t1 => if fold c = fold d then likeMatch fold p t1 else some false := by
  rw [likeMatch.eq_def]

theorem dangling_cons (c : Char) (p : List Char) :
    dangling (c :: p)
      = if c = escapeChar then
          match p with
          | [] => true
          | _ :: p1 => dangling p1
        else dangling p := by
  rw [dangling.eq_def]

theorem likeMatch_percent (fold : Char → Char) (p t : List Char) :
    likeMatch fold ('%' :: p) t = anySuffix (likeMatch fold p) t := by
  rw [likeMatch_cons]; simp

theorem likeMatch_isSome_aux (fold : Char → Char) (n : Nat) :
    ∀ p : List Char, p.length ≤ n → dangling p = false →
      ∀ t, (likeMatch fold p t).isSome = true := by
  induction n with
  | zero =>
    intro p hp _ t
    have : p = [] := List.length_eq_zero.1 (by omega)
    subst this
    rw [likeMatch_nil]; rfl
  | succ n ih =>
    intro p hp hd t
    cases p with
    | nil => rw [likeMatch_nil]; rfl
    | cons c p =>
      have hlen : p.length ≤ n := by simp only [List.length_cons] at hp; omega
      rw [likeMatch_cons]
      by_cases h1 : c = '%'
      · simp only [h1, if_true]
        refine anySuffix_isSome _ (ih p hlen ?_) t
        rw [dangling_cons] at hd
        have : ¬ c = escapeChar := by rw [h1]; decide
        simpa [this] using hd
      · simp only [h1, if_false]
        by_cases h2 : c = '_'
        · simp only [h2, if_true]
          have hdp : dangling p = false := by
            rw [dangling_cons] at hd
            have : ¬ c = escapeChar := by rw [h2]; decide
            simpa [this] using hd
          cases t with
          | nil => rfl
          | cons d t1 => exact ih p hlen hdp t1
        · simp only [h2, if_false]
          by_cases h3 : c = escapeChar
          · simp only [h3, if_true]
            rw [dangling_cons] at hd
            simp only [h3, if_true] at hd
            cases p with
            | nil => simp at hd
            | cons e p1 =>
              simp only at hd
              cases t with
              | nil => rfl
              | cons d t1 =>
                simp only
                split
                · exact ih p1 (by simp only [List.length_cons] at hlen; omega) hd t1
                · rfl
          · simp only [h3, if_false]
            have hdp : dangling p = false := by
              rw [dangling_cons] at hd
              simpa [h3] using hd
            cases t with
            | nil => rfl
            | cons d t1 =>
              simp only
              split
              · exact ih p hlen hdp t1
              · rfl

theorem dangling_append_percent_aux (n : Nat) :
    ∀ q : List Char, q.length ≤ n → dangling (q ++ ['%']) = false := by
  induction n with
  | zero =>
    intro q hq
    have : q = [] := List.length_eq_zero.1 (by omega)
    subst this
    decide
  | succ n ih =>
    intro q hq
    cases q with
    | nil => decide
    | cons c q1 =>
      have hlen : q1.length ≤ n := by simp only [List.length_cons] at hq; omega
      rw [List.cons_append, dangling_cons]
      by_cases h : c = escapeChar
      · simp only [h, if_true]
        cases q1 with
        | nil => rfl
        | cons e q2 =>
          simp only [List.cons_append]
          exact ih q2 (by simp only [List.length_cons] at hlen; omega)
      · simp only [h, if_false]
        exact ih q1 hlen

/-- The pattern the handler builds, `%q%`, never raises the error of a pattern
that ends in a backslash. -/
theorem likeMatch_wrapped_isSome (fold : Char → Char) (q t : List Char) :
    (likeMatch fold ('%' :: (q ++ ['%'])) t).isSome = true := by
  rw [likeMatch_percent]
  exact anySuffix_isSome _
    (likeMatch_isSome_aux fold _ _ (le_refl _) (dangling_append_percent_aux _ q (le_refl _))) t

theorem anySuffix_nil (fold : Char → Char) (t : List Char) :
    anySuffix (likeMatch fold []) t = some true := by
  induction t with
  | nil => rfl
  | cons c t ih =>
    unfold anySuffix
    rw [likeMatch_nil]
    exact ih

/-- A pattern of plain characters followed by `%` matches the texts it is a
prefix of, case folded. -/
theorem likeMatch_plain_percent (fold : Char → Char) (q : List Char)
    (hq : ∀ c ∈ q, plainChar c = true) (t : List Char) :
    likeMatch fold (q ++ ['%']) t = some (decide (q.map fold <+: t.map fold)) := by
  induction q generalizing t with
  | nil =>
    rw [List.nil_append, likeMatch_percent, anySuffix_nil]
    simp
  | cons c q ih =>
    have hc := hq c (List.mem_cons_self _ _)
    simp only [plainChar, Bool.not_eq_true', Bool.or_eq_false_iff, decide_eq_false_iff_not] at hc
    obtain ⟨⟨h1, h2⟩, h3⟩ := hc
    rw [List.cons_append, likeMatch_cons]
    simp only [h1, h2, h3, if_false]
    cases t with
    | nil => simp
    | cons d t1 =>
      simp only [List.map_cons, List.cons_prefix_cons]
      by_cases hcd : fold c = fold d
      · simp only [hcd, if_true, true_and]
        exact ih (fun x hx => hq x (List.mem_cons_of_mem _ hx)) t1
      · simp [hcd]

theorem anySuffix_prefix (fold : Char → Char) (k : List Char → Option Bool) (qm : List Char)
    (hk : ∀ t, k t = some (decide (qm <+: t.map fold))) (t : List Char) :
    anySuffix k t = some (decide (qm <:+: t.map fold)) := by
  induction t with
  | nil =>
    unfold anySuffix
    rw [hk]
    simp
  | cons c t ih =>
    unfold anySuffix
    rw [hk]
    by_cases hp : qm <+: (c :: t).map fold
    · simp only [hp, decide_True]
      have hin := hp.isInfix
      simp only [List.map_cons] at hin
      simp [hin]
    · simp only [hp, decide_False, ih]
      congr 1
      simp only [List.map_cons, decide_eq_decide]
      rw [List.infix_cons_iff]
      simp only [List.map_cons] at hp
      simp [hp]

/-- For `q` of plain characters, `%q%` matches exactly the texts that contain
`q`, case folded. -/
theorem likeMatch_plain (fold : Char → Char) (q t : List Char)
    (hq : ∀ c ∈ q, plainChar c = true) :
    likeMatch fold ('%' :: (q ++ ['%'])) t = some (decide (q.map fold <:+: t.map fold)) := by
  rw [likeMatch_percent]
  exact anySuffix_prefix fold _ _ (likeMatch_plain_percent fold q hq) t

theorem pattern_toList (q : String) : ("%" ++ q ++ "%").toList = '%' :: (q.toList ++ ['%']) := by
  simp [String.toList]

/-- The rows `WHERE title ILIKE '%q%'` keeps: no row raises an error, and the
rows kept are those whose title matches. -/
theorem whereTitleILike_wrapped (fold : Char → Char) (q : String) (rows : List Task) :
    whereTitleILike fold ("%" ++ q ++ "%") rows
      = some (rows.filter (fun r =>
          likeMatch fold ("%" ++ q ++ "%").toList r.title.toList = some true)) := by
  induction rows with
  | nil => rfl
  | cons r rows ih =>
    unfold whereTitleILike
    rw [ih]
    have hsome := likeMatch_wrapped_isSome fold q.toList r.title.toList
    rw [← pattern_toList] at hsome
    cases hm : likeMatch fold ("%" ++ q ++ "%").toList r.title.toList with
    | none => rw [hm] at hsome; cases hsome
    | some b =>
      cases b
      · simp only [List.filter_cons, hm, Option.some.injEq, Bool.false_eq_true, decide_False,
          Bool.false_eq_true, if_false]
      · simp only [List.filter_cons, hm, decide_True, if_true]

/-! ## Order of the listing -/

theorem newerThan_of_ordered (a b : Task) (h : OrderedDesc a b)
    (hne : a.created_at ≠ b.created_at) : newerThan a b = true := by
  unfold OrderedDesc createdAtDesc at h
  unfold newerThan
  cases ha : a.created_at <;> cases hb : b.created_at <;> simp_all
  omega

theorem newerThan_asymm (a b : Task) (h : newerThan a b = true) : newerThan b a = false := by
  unfold newerThan at h ⊢
  cases ha : a.created_at <;> cases hb : b.created_at <;> simp_all
  omega

theorem newerThan_irrefl (a : Task) : newerThan a a = false := by
  unfold newerThan
  cases ha : a.created_at <;> simp

/-- In a list that runs from newer to strictly older, each row's rank is its
position. -/
theorem rank_sorted (l : List Task) (h : l.Pairwise (fun a b => newerThan a b = true)) :
    l.map (rank l) = List.range l.length := by
  induction l with
  | nil => rfl
  | cons a l ih =>
    obtain ⟨ha, hl⟩ := List.pairwise_cons.1 h
    have h0 : rank (a :: l) a = 0 := by
      unfold rank
      rw [List.countP_eq_zero]
      intro x hx
      rcases List.mem_cons.1 hx with rfl | hx
      · simp [newerThan_irrefl]
      · simp [newerThan_asymm _ _ (ha x hx)]
    have hs : ∀ r ∈ l, rank (a :: l) r = rank l r + 1 := by
      intro r hr
      unfold rank
      rw [List.countP_cons, ha r hr]
      simp
    rw [List.map_cons, h0, List.length_cons, List.range_succ_eq_map, List.map_congr_left hs,
      ← ih hl, List.map_map]
    rfl

theorem sorted_newerThan (rows : List Task)
    (hd : rows.Pairwise (fun a b => a.created_at ≠ b.created_at)) :
    (rows.insertionSort OrderedDesc).Pairwise (fun a b => newerThan a b = true) := by
  have hsorted : (rows.insertionSort OrderedDesc).Pairwise OrderedDesc :=
    List.sorted_insertionSort OrderedDesc rows
  have hdistinct : (rows.insertionSort OrderedDesc).Pairwise
      (fun a b => a.created_at ≠ b.created_at) :=
    ((List.perm_insertionSort OrderedDesc rows).pairwise_iff (fun h => Ne.symm h)).2 hd
  exact (hsorted.and hdistinct).imp (fun h => newerThan_of_ordered _ _ h.1 h.2)

theorem likeMatch_all (fold : Char → Char) (t : List Char) :
    likeMatch fold ("%" ++ "" ++ "%").toList t = some true := by
  have h : ("%" ++ "" ++ "%").toList = ['%', '%'] := by decide
  rw [h, likeMatch_percent]
  apply anySuffix_true_of_head
  rw [likeMatch_percent]
  exact anySuffix_nil fold t

theorem cleanText_pattern (q : String) (h : cleanText q = true) :
    cleanText ("%" ++ q ++ "%") = true := by
  unfold cleanText at h ⊢
  rw [pattern_toList]
  simp only [List.all_cons, List.all_append, List.all_nil, Bool.and_true, h, Bool.and_eq_true,
    and_true]
  decide

/-- The rows a GET /tasks answers when the round trip meets no fault, `q`
holds no U+0000, and `limit` and `offset` are not negative and fit
`bigint`. -/
theorem getTasks_quiet (fold : Char → Char) (w : World) (env : Env) (q : Option String)
    (limit offset : Option Int) (hquiet : env.fault = .none)
    (hq : cleanText (q.getD "") = true)
    (hl : 0 ≤ limit.getD 20) (hl8 : limit.getD 20 ≤ 9223372036854775807)
    (ho : 0 ≤ offset.getD 0) (ho8 : offset.getD 0 ≤ 9223372036854775807) :
    (getTasks fold w env q limit offset).response
      = ⟨200, .tasks ((((w.db.rows.filter (fun r =>
          likeMatch fold ("%" ++ q.getD "" ++ "%").toList r.title.toList = some true)).insertionSort
            OrderedDesc).drop (offset.getD 0).toNat).take (limit.getD 20).toNat)⟩ := by
  have hlim : inInt8 (limit.getD 20) = true := by
    simp only [inInt8, decide_eq_true_eq]
    omega
  have hoff : inInt8 (offset.getD 0) = true := by
    simp only [inInt8, decide_eq_true_eq]
    omega
  rw [getTasks_response fold, roundTrip_none fold w env _ hquiet]
  simp only [statementOf, selectList, cleanText_pattern _ hq, hlim, hoff, Bool.and_self, if_true]
  simp only [selectRows, not_lt.2 hl, not_lt.2 ho, if_false, whereTitleILike_wrapped]

/-! ## C7: pagination -/

/-- C7 as stated fails: on `table25`, whose task `i` was created at time `i`,
GET /tasks?limit=10&offset=10 answers the tasks 15 down to 6, of ranks 10 to
19 (the 11th to the 20th newest), not the tasks of ranks 2 to 11 (the 3rd to
the 12th newest). -/
theorem pagination_not_third_to_twelfth :
    ∃ ts, (getTasks Char.toLower world25 quiet none (some 10) (some 10)).response
        = ⟨200, .tasks ts⟩
      ∧ ts.map Task.id = [15, 14, 13, 12, 11, 10, 9, 8, 7, 6]
      ∧ ts.map (rank world25.db.rows) = [10, 11, 12, 13, 14, 15, 16, 17, 18, 19]
      ∧ ts.map (rank world25.db.rows) ≠ [2, 3, 4, 5, 6, 7, 8, 9, 10, 11] :=
  ⟨_, rfl, by decide, by decide, by decide⟩

/-- C7, amended.  For every table of 25 tasks with pairwise distinct created_at,
GET /tasks?limit=10&offset=10 without `q`, when it meets no fault, answers 200
with exactly ten tasks of the table: those with 10, 11, ..., 19 tasks of the
table strictly newer than them, that is the 11th to the 20th newest, in this
order, each strictly newer than the ones after it. -/
theorem pagination_eleventh_to_twentieth (fold : Char → Char) (w : World) (env : Env)
    (hquiet : env.fault = .none) (hlen : w.db.rows.length = 25)
    (hdistinct : w.db.rows.Pairwise (fun a b => a.created_at ≠ b.created_at)) :
    ∃ ts, (getTasks fold w env none (some 10) (some 10)).response = ⟨200, .tasks ts⟩
      ∧ ts.map (rank w.db.rows) = [10, 11, 12, 13, 14, 15, 16, 17, 18, 19]
      ∧ (∀ t ∈ ts, t ∈ w.db.rows)
      ∧ ts.Pairwise (fun a b => newerThan a b = true) := by
  have hall : w.db.rows.filter (fun r =>
      likeMatch fold ("%" ++ "" ++ "%").toList r.title.toList = some true) = w.db.rows := by
    rw [List.filter_eq_self]
    intro r _
    simp only [likeMatch_all, decide_True]
  have hresp := getTasks_quiet fold w env none (some 10) (some 10) hquiet (by decide)
    (by decide) (by decide) (by decide) (by decide)
  simp only [Option.getD_none, Option.getD_some, hall] at hresp
  have hperm := List.perm_insertionSort OrderedDesc w.db.rows
  have hsorted := sorted_newerThan w.db.rows hdistinct
  refine ⟨_, hresp, ?_, ?_, ?_⟩
  · have hrank : rank w.db.rows = rank (w.db.rows.insertionSort OrderedDesc) := by
      funext r
      exact (List.Perm.countP_eq _ hperm).symm
    have h10 : (10 : Int).toNat = 10 := rfl
    rw [hrank, h10, List.map_take, List.map_drop, rank_sorted _ hsorted, hperm.length_eq, hlen]
    decide
  · intro t ht
    exact hperm.subset ((List.drop_subset _ _) ((List.take_subset _ _) ht))
  · exact (hsorted.sublist (List.drop_sublist _ _)).sublist (List.take_sublist _ _)

/-- Witness of C7: `table25`. -/
theorem pagination_eleventh_to_twentieth_witness :
    quiet.fault = .none ∧ world25.db.rows.length = 25
    ∧ world25.db.rows.Pairwise (fun a b => a.created_at ≠ b.created_at)
    ∧ ∃ ts, (getTasks Char.toLower world25 quiet none (some 10) (some 10)).response
        = ⟨200, .tasks ts⟩
      ∧ ts.map (rank world25.db.rows) = [10, 11, 12, 13, 14, 15, 16, 17, 18, 19]
      ∧ (∀ t ∈ ts, t ∈ world25.db.rows)
      ∧ ts.Pairwise (fun a b => newerThan a b = true) := by
  have hdistinct : world25.db.rows.Pairwise (fun a b => a.created_at ≠ b.created_at) := by
    decide
  exact ⟨rfl, rfl, hdistinct,
    pagination_eleventh_to_twentieth Char.toLower world25 quiet rfl rfl hdistinct⟩

/-! ## C6: search -/

/-- C6 as stated fails for `q` with pattern characters.  With `q` the
underscore, the task titled `a` is returned though its title does not contain
an underscore (its description does).  With `q` a backslash, the task whose
title contains a backslash is not returned. -/
theorem search_not_substring :
    (getTasks Char.toLower worldA quiet (some "_") none none).response
        = ⟨200, .tasks worldA.db.rows⟩
    ∧ (∀ r ∈ worldA.db.rows, ¬ containsIgnoringCase Char.toLower "_" r.title)
    ∧ (getTasks Char.toLower worldBackslash quiet (some (String.mk [escapeChar])) none
        none).response = ⟨200, .tasks []⟩
    ∧ (∀ r ∈ worldBackslash.db.rows,
        containsIgnoringCase Char.toLower (String.mk [escapeChar]) r.title) := by
  decide

/-- C6, amended.  For every table and every `q` that holds no U+0000, GET
/tasks?q=`q` with offset 0 and a limit that covers the table and fits `bigint`
(at most 9223372036854775807), when it meets no fault, answers 200 with
exactly the rows whose title matches the `ILIKE` pattern `%q%`, in which `%`
stands for any run of characters, `_` for any one character and a backslash
makes the next character literal.  When `q` has none of these three
characters, these are exactly the rows whose title contains `q` as a
substring when letter case is ignored, whatever their description. -/
theorem search_matches_pattern (fold : Char → Char) (w : World) (env : Env) (q : String)
    (limit : Int) (offset : Option Int) (hquiet : env.fault = .none)
    (hclean : cleanText q = true)
    (hlimit : (w.db.rows.length : Int) ≤ limit) (hmax : limit ≤ 9223372036854775807)
    (hoffset : offset.getD 0 = 0) :
    ∃ ts, (getTasks fold w env (some q) (some limit) offset).response = ⟨200, .tasks ts⟩
      ∧ ts.Perm (w.db.rows.filter (fun r =>
          likeMatch fold ('%' :: (q.toList ++ ['%'])) r.title.toList = some true))
      ∧ ((∀ c ∈ q.toList, plainChar c = true) →
          ts.Perm (w.db.rows.filter (fun r => containsIgnoringCase fold q r.title))) := by
  have hl : (0 : Int) ≤ limit := le_trans (Int.ofNat_nonneg _) hlimit
  have hresp := getTasks_quiet fold w env (some q) (some limit) offset hquiet hclean hl hmax
    (by rw [hoffset]) (by rw [hoffset]; decide)
  simp only [Option.getD_some, hoffset, Int.toNat_zero, List.drop_zero, pattern_toList] at hresp
  have htake : ∀ l : List Task, l.length ≤ w.db.rows.length → l.take limit.toNat = l := by
    intro l hlen
    apply List.take_of_length_le
    omega
  rw [htake _ (by
    rw [(List.perm_insertionSort OrderedDesc _).length_eq]
    exact List.length_filter_le _ _)] at hresp
  refine ⟨_, hresp, List.perm_insertionSort OrderedDesc _, ?_⟩
  intro hplain
  have hfilter : w.db.rows.filter (fun r =>
        likeMatch fold ('%' :: (q.toList ++ ['%'])) r.title.toList = some true)
      = w.db.rows.filter (fun r => containsIgnoringCase fold q r.title) := by
    apply List.filter_congr
    intro r _
    rw [likeMatch_plain fold q.toList r.title.toList hplain]
    simp [containsIgnoringCase]
  rw [← hfilter]
  exact List.perm_insertionSort OrderedDesc _

/-- Witness of C6: the task titled "Buy Milk" of `exampleWorld` is returned for
`q = "MILK"`. -/
theorem search_matches_pattern_witness :
    quiet.fault = .none ∧ cleanText "MILK" = true
    ∧ (exampleWorld.db.rows.length : Int) ≤ 20 ∧ (20 : Int) ≤ 9223372036854775807
    ∧ (∀ c ∈ "MILK".toList, plainChar c = true)
    ∧ containsIgnoringCase Char.toLower "MILK" exampleRow.title
    ∧ ∃ ts, (getTasks Char.toLower exampleWorld quiet (some "MILK") (some 20) none).response
          = ⟨200, .tasks ts⟩
        ∧ ts.Perm (exampleWorld.db.rows.filter (fun r =>
            containsIgnoringCase Char.toLower "MILK" r.title)) := by
  have hclean : cleanText "MILK" = true := by decide
  have hlimit : (exampleWorld.db.rows.length : Int) ≤ 20 := by decide
  have hmax : (20 : Int) ≤ 9223372036854775807 := by decide
  have hplain : ∀ c ∈ "MILK".toList, plainChar c = true := by decide
  obtain ⟨ts, hresp, -, hsub⟩ :=
    search_matches_pattern Char.toLower exampleWorld quiet "MILK" 20 none rfl hclean hlimit hmax
      rfl
  exact ⟨rfl, hclean, hlimit, hmax, hplain, by decide, ts, hresp, hsub hplain⟩

end TaskServer
